import Mathlib

/-!
Verification development for the greenzone-web backend.

The backend composes Google Earth Engine (GEE) requests: it assembles a
cloud-free Landsat collection, builds yearly summer median composites,
computes a per-pixel z-score anomaly for a selected year, and serializes
the fetched pixel lists as GeoJSON.  This file gives a shallow embedding
of the repository's own logic:

* pure request control flow (module initialization, the POST handler)
  is embedded directly;
* the declarative GEE call graph is embedded as operations on an image
  model (a list of named bands, each a function from pixels to real
  values, plus a mask, a timestamp and an abstract geometry test); the
  per-pixel semantics of the platform reducers (mean, stdDev, median)
  are spelled out as the usual arithmetic operations on the per-pixel
  value lists;
* the GeoJSON serialization loop is embedded over rational-valued
  pixel lists together with a model of json.dumps.
-/

/-! ### Calendar dates (ee.Date.fromYMD values used by the pipeline) -/

/-- A calendar date as produced by ee.Date.fromYMD. -/
structure Date where
  year : ℤ
  month : ℤ
  day : ℤ
deriving DecidableEq, Repr

/-- A sort key that orders valid dates (month 1..12, day 1..31)
lexicographically by year, month, day. -/
def Date.key (d : Date) : ℤ := d.year * 372 + d.month * 31 + d.day

/-! ### Module initialization of app.py (claim C8)

app.py lines 13-18:
  try: ee.Initialize()
  except Exception: ee.Authenticate(); ee.Initialize()
We record the sequence of ee calls the module makes, as a function of
whether the first ee.Initialize() raises. -/

/-- An Earth Engine API call made during module initialization. -/
inductive EEInitCall where
  | initCall
  | authCall
deriving DecidableEq, Repr

/-- The sequence of ee calls made by the try/except block at the top of
app.py, given whether the first ee.Initialize() raises an exception. -/
def ee_init_trace (firstInitializeRaises : Bool) : List EEInitCall :=
  if firstInitializeRaises then
    [EEInitCall.initCall, EEInitCall.authCall, EEInitCall.initCall]
  else
    [EEInitCall.initCall]

/-! ### The POST /api/fetch_anomaly_map_data handler (claim C9)

app.py lines 23-55.  data.get returns None both when the key is absent
and when its value is JSON null, so each field is modelled as an Option.
The handler validates the five fields with "is None" checks; on failure
it returns status 400 with the error body and nothing else runs, on
success it invokes anomaly_processing on the five values. -/

/-- Result of the request handler: either the 400 error response, or the
invocation of anomaly_processing with the five extracted values
(the remainder of the handler). -/
inductive FetchResult (A B C D E : Type) where
  | badRequest (status : ℕ) (errorMessage : String)
  | processed (province : A) (soum : B) (vegetationIndex : C) (year : D) (grazingOnly : E)
deriving DecidableEq

/-- app.py fetch_anomaly_map_data: extract the five fields, return the
400 error when any is None, otherwise hand them to anomaly_processing. -/
def fetch_anomaly_map_data {A B C D E : Type}
    (selectedProvince : Option A) (selectedSoum : Option B)
    (selectedVegetationIndex : Option C) (selectedYear : Option D)
    (grazingOnly : Option E) : FetchResult A B C D E :=
  match selectedProvince, selectedSoum, selectedVegetationIndex, selectedYear, grazingOnly with
  | some p, some s, some v, some y, some g => FetchResult.processed p s v y g
  | _, _, _, _, _ => FetchResult.badRequest 400 "Missing required fields in the request."

/-! ### bitwiseExtract and the cloud flag bits (claim C10)

utils.py lines 310-330.  QA_PIXEL values are non-negative integers, so
the per-pixel computation is embedded over natural numbers:
maskSize = 1 + toBit - fromBit, mask = (1 <<< maskSize) - 1, and the
result is (img >>> fromBit) &&& mask.  The rename of the band is not
value-relevant and is omitted here. -/

/-- utils.py bitwiseExtract, per pixel value. -/
def bitwiseExtract (img fromBit toBit : ℕ) : ℕ :=
  (img >>> fromBit) &&& ((1 <<< (1 + toBit - fromBit)) - 1)

/-- The four single-bit flags computed by utils.py landsat578_cloud from
a QA_PIXEL value: dilutedCloud (bit 1), cirrus (bit 2), cloud (bit 3),
cloudShadow (bit 4).  Each is compared against 0 by the masking code. -/
def landsat578_cloud_flags (qa : ℕ) : List ℕ :=
  [bitwiseExtract qa 1 1, bitwiseExtract qa 2 2,
   bitwiseExtract qa 3 3, bitwiseExtract qa 4 4]

/-! ### Metadata cloud-cover filtering of get_landsat_collection (claim C3)

landsat_functions.py lines 109-119.  At the collection-membership level
an image is characterized by its metadata: the CLOUD_COVER property, the
system:time_start key and whether its footprint intersects the area of
interest.  The subsequent .map stages (cloud masking, index bands) and
the final .select change the bands of each image but never remove or add
images, so membership in the returned collection is decided entirely by
the three filters embedded here.  Note the source filters with
ee.Filter.gt("CLOUD_COVER", cloud_cover_perc), which KEEPS an image
exactly when its cloud cover is strictly greater than the threshold. -/

/-- Membership-relevant metadata of one Landsat scene. -/
structure Scene where
  cloudCover : ℚ
  timeKey : ℤ
  intersectsBox : Bool
deriving DecidableEq, Repr

/-- landsat_functions.py get_landsat_collection, at the membership level:
.filterBounds(box) .filterDate(dateIni, dateEnd)
.filter(ee.Filter.gt("CLOUD_COVER", cloud_cover_perc)). -/
def landsat_functions.get_landsat_collection (merged : List Scene)
    (dateIniKey dateEndKey : ℤ) (cloud_cover_perc : ℚ) : List Scene :=
  ((merged.filter (fun s => s.intersectsBox)).filter
      (fun s => decide (dateIniKey ≤ s.timeKey) && decide (s.timeKey < dateEndKey))).filter
    (fun s => decide (cloud_cover_perc < s.cloudCover))

/-! ### GeoJSON serialization (claim C4)

app.py lines 123-170 (identical code in anomaly_processing.py and
utils.py).  After the three getInfo fetches the function only builds a
Python dict from the three lists and serializes it with json.dumps; the
numbers are modelled as rationals and json.dumps as a structural
serializer with the default ", " and ": " separators. -/

/-- A JSON value. -/
inductive Json where
  | null
  | str (s : String)
  | num (q : ℚ)
  | arr (elements : List Json)
  | obj (fields : List (String × Json))

/-- Rendering of a rational number (model of Python float formatting). -/
def Json.numStr (q : ℚ) : String :=
  toString q.num ++ "/" ++ toString q.den

mutual

/-- Model of json.dumps with the default separators. -/
def Json.dumps : Json → String
  | Json.null => "null"
  | Json.str s => "\"" ++ s ++ "\""
  | Json.num q => Json.numStr q
  | Json.arr es => "[" ++ Json.dumpsList es ++ "]"
  | Json.obj fs => "\x7b" ++ Json.dumpsFields fs ++ "\x7d"

/-- Comma-separated serialization of array elements. -/
def Json.dumpsList : List Json → String
  | [] => ""
  | [e] => Json.dumps e
  | e :: es => Json.dumps e ++ ", " ++ Json.dumpsList es

/-- Comma-separated serialization of object fields. -/
def Json.dumpsFields : List (String × Json) → String
  | [] => ""
  | [(k, v)] => "\"" ++ k ++ "\": " ++ Json.dumps v
  | (k, v) :: fs => "\"" ++ k ++ "\": " ++ Json.dumps v ++ ", " ++ Json.dumpsFields fs

end

/-- The i-th feature built inside the loop of convert_gee_image_to_geojson:
a Point at [lons[i], lats[i]] with the single property z_score. -/
def geojsonFeature (lon lat z : ℚ) : Json :=
  Json.obj
    [("type", Json.str "Feature"),
     ("geometry", Json.obj
        [("type", Json.str "Point"),
         ("coordinates", Json.arr [Json.num lon, Json.num lat])]),
     ("properties", Json.obj [("z_score", Json.num z)])]

/-- The geojson_data dictionary of convert_gee_image_to_geojson: a
FeatureCollection whose features list is built by the loop
for i in range(len(pixel_values)). -/
def geojsonData (pixel_values lats lons : List ℚ) : Json :=
  Json.obj
    [("type", Json.str "FeatureCollection"),
     ("features", Json.arr ((List.range pixel_values.length).map
        (fun i => geojsonFeature (lons.getD i 0) (lats.getD i 0) (pixel_values.getD i 0))))]

/-- convert_gee_image_to_geojson after the three getInfo fetches: build
the FeatureCollection from the three lists and return json.dumps of it. -/
def convert_gee_image_to_geojson (pixel_values lats lons : List ℚ) : String :=
  Json.dumps (geojsonData pixel_values lats lons)

/-! ### The Earth Engine image model

An ee.Image of the pipeline is modelled as an ordered list of named
bands, each band a function from pixels to real values, together with a
pixel mask, the system:time_start date, and an abstract geometry test
(whether the image footprint intersects a given region).  Regions serve
two purposes, exactly as geom does in the source: pixel membership (for
.clip) and the footprint test (for .filterBounds); pixel membership is a
boolean predicate on the pixel type P and the footprint test is carried
by each image, since geometry intersection is computed by the platform.
An ee.ImageCollection is a list of images. -/

noncomputable section

/-- An Earth Engine image over pixel type P. -/
structure Img (P : Type) where
  bands : List (String × (P → ℝ))
  mask : P → Bool
  time : Date
  intersects : (P → Bool) → Bool

variable {P : Type}

/-- The list of band names of an image, in order. -/
def bandNames (img : Img P) : List String := img.bands.map (fun nf => nf.1)

/-- The value of the named band at a pixel (first band with that name;
0 is the out-of-model default for a missing band, which on the platform
would be an error). -/
def valB (img : Img P) (b : String) (p : P) : ℝ :=
  match img.bands.lookup b with
  | some f => f p
  | none => 0

/-- image.addBands(newBand): append one named band. -/
def addBands (img : Img P) (nb : String × (P → ℝ)) : Img P :=
  { img with bands := img.bands ++ [nb] }

/-- image.addBands(y, overwrite=True): bands of img whose name occurs in
y get y's value, other bands of img are kept; bands of y with fresh
names are appended. -/
def addBandsOverwrite (img y : Img P) : Img P :=
  { img with bands :=
      (img.bands.map (fun nf => (nf.1, (y.bands.lookup nf.1).getD nf.2))) ++
        y.bands.filter (fun nf => (img.bands.lookup nf.1).isNone) }

/-- image.select(names): keep the named bands, in the given order. -/
def selectNames (names : List String) (img : Img P) : Img P :=
  { img with bands := names.filterMap (fun n =>
      (img.bands.lookup n).map (fun f => (n, f))) }

/-- image.select([i], [newName]): select one band by position and rename
it (used as anomaly.select([0], [z_score])). -/
def selectIdx (i : ℕ) (newName : String) (img : Img P) : Img P :=
  { img with bands :=
      match img.bands.get? i with
      | some nf => [(newName, nf.2)]
      | none => [] }

/-- image.multiply(ee.Image.constant(ks)): positional per-band product
with a list of constants. -/
def imgMulConsts (ks : List ℝ) (img : Img P) : Img P :=
  { img with bands := (img.bands.zip ks).map (fun nfk =>
      (nfk.1.1, fun p => nfk.1.2 p * nfk.2)) }

/-- image.add(ee.Image.constant(ks)): positional per-band sum with a
list of constants. -/
def imgAddConsts (ks : List ℝ) (img : Img P) : Img P :=
  { img with bands := (img.bands.zip ks).map (fun nfk =>
      (nfk.1.1, fun p => nfk.1.2 p + nfk.2)) }

/-- a.subtract(b): positional per-band difference; output band names
come from a, a pixel is masked when it is masked in either input. -/
def imgSub (a b : Img P) : Img P :=
  { a with
    bands := (a.bands.zip b.bands).map
      (fun nfg => (nfg.1.1, fun p => nfg.1.2 p - nfg.2.2 p)),
    mask := fun p => a.mask p && b.mask p }

/-- a.divide(b): positional per-band quotient; output band names come
from a, a pixel is masked when it is masked in either input. -/
def imgDiv (a b : Img P) : Img P :=
  { a with
    bands := (a.bands.zip b.bands).map
      (fun nfg => (nfg.1.1, fun p => nfg.1.2 p / nfg.2.2 p)),
    mask := fun p => a.mask p && b.mask p }

/-- image.clip(geom): mask out pixels outside the region. -/
def clip (geom : P → Bool) (img : Img P) : Img P :=
  { img with mask := fun p => img.mask p && geom p }

/-- image.set(system:time_start, d). -/
def setTime (d : Date) (img : Img P) : Img P := { img with time := d }

/-- utils.py image_mask(from_image, mask_parameter): the returned
per-image function; pixels where from_image equals one of the listed
values are masked out (the conjunction of the from_image.neq(element)
masks), and system:time_start is preserved. -/
def image_mask (from_image : P → ℝ) (mask_parameter : List ℝ) (image : Img P) : Img P :=
  { image with mask := fun p =>
      image.mask p && mask_parameter.all (fun v => decide (from_image p ≠ v)) }

/-- utils.py landsat578_cloud(): the returned per-image function keeps a
pixel when every requested QA_PIXEL cloud flag passes.  The bit tests on
the integer-coded QA_PIXEL band are the platform's; they are abstracted
into the boolean test qaKeep on the band value (see
landsat578_cloud_flags for the bit arithmetic itself). -/
def landsat578_cloud (qaKeep : ℝ → Bool) (image : Img P) : Img P :=
  { image with mask := fun p =>
      image.mask p && qaKeep (valB image "QA_PIXEL" p) }

/-! Collection-level operations. -/

/-- collection.filterBounds(box): keep images whose footprint intersects
the region. -/
def filterBounds (box : P → Bool) (c : List (Img P)) : List (Img P) :=
  c.filter (fun i => i.intersects box)

/-- collection.filterDate(s, e): keep images with s &le; time &lt; e
(the end date is exclusive). -/
def filterDate (s e : Date) (c : List (Img P)) : List (Img P) :=
  c.filter (fun i => decide (s.key ≤ i.time.key) && decide (i.time.key < e.key))

/-- collection.first(). -/
def icFirst (c : List (Img P)) : Option (Img P) := c.head?

/-- collection.sort(system:time_start): stable sort by time. -/
def sortByTime (c : List (Img P)) : List (Img P) :=
  c.insertionSort (fun a b => a.time.key ≤ b.time.key)

/-- The ee.Date of the minimum of a list of dates (reduceColumns with
ee.Reducer.minMax over system:time_start, min output). -/
def minDate : List Date → Date
  | [] => ⟨0, 0, 0⟩
  | d :: ds => ds.foldl (fun a b => if b.key < a.key then b else a) d

/-- The ee.Date of the maximum of a list of dates (reduceColumns with
ee.Reducer.minMax over system:time_start, max output). -/
def maxDate : List Date → Date
  | [] => ⟨0, 0, 0⟩
  | d :: ds => ds.foldl (fun a b => if a.key < b.key then b else a) d

/-- Arithmetic mean of a list of per-pixel values. -/
def listMean (xs : List ℝ) : ℝ := xs.sum / xs.length

/-- Population variance of a list of per-pixel values. -/
def listVariance (xs : List ℝ) : ℝ :=
  ((xs.map (fun x => (x - listMean xs) ^ 2)).sum) / xs.length

/-- Standard deviation of a list of per-pixel values
(ee.Reducer.stdDev semantics). -/
def listStdDev (xs : List ℝ) : ℝ := Real.sqrt (listVariance xs)

/-- Median of a list of per-pixel values (ee.Reducer.median semantics:
middle of the sorted values, averaging the two middles for even
counts). -/
def listMedian (xs : List ℝ) : ℝ :=
  let s := xs.insertionSort (fun a b : ℝ => a ≤ b)
  if xs.length % 2 = 1 then s.getD (xs.length / 2) 0
  else (s.getD (xs.length / 2 - 1) 0 + s.getD (xs.length / 2) 0) / 2

/-- The values of band b at pixel p over the images of the collection
that are unmasked at p (the inputs a per-pixel reducer sees). -/
def unmaskedVals (c : List (Img P)) (b : String) (p : P) : List ℝ :=
  (c.filter (fun i => i.mask p)).map (fun i => valB i b p)

/-- Band names a collection reducer produces: those of the first image
(the collections of this pipeline are band-homogeneous). -/
def headBandNames (c : List (Img P)) : List String :=
  match c with
  | [] => []
  | i :: _ => bandNames i

/-- collection.mean(): per-pixel mean of the unmasked values of each
band; a pixel is masked when no input is unmasked there. -/
def icMean (c : List (Img P)) : Img P :=
  { bands := (headBandNames c).map
      (fun n => (n, fun p => listMean (unmaskedVals c n p))),
    mask := fun p => !(c.filter (fun i => i.mask p)).isEmpty,
    time := ⟨0, 0, 0⟩,
    intersects := fun _ => true }

/-- collection.reduce(ee.Reducer.stdDev()): per-pixel standard deviation
of the unmasked values of each band; output bands get the _stdDev
suffix. -/
def icReduceStdDev (c : List (Img P)) : Img P :=
  { bands := (headBandNames c).map
      (fun n => (n ++ "_stdDev", fun p => listStdDev (unmaskedVals c n p))),
    mask := fun p => !(c.filter (fun i => i.mask p)).isEmpty,
    time := ⟨0, 0, 0⟩,
    intersects := fun _ => true }

/-- collection.median(): per-pixel median of the unmasked values of each
band; a pixel is masked when no input is unmasked there. -/
def icMedian (c : List (Img P)) : Img P :=
  { bands := (headBandNames c).map
      (fun n => (n, fun p => listMedian (unmaskedVals c n p))),
    mask := fun p => !(c.filter (fun i => i.mask p)).isEmpty,
    time := ⟨0, 0, 0⟩,
    intersects := fun _ => true }

/-! ### Vegetation index band functions (gee_script/utils.py)

Each of these source functions returns a per-image function that
evaluates a band-arithmetic expression on the selected bands, renames
the result and appends it with image.addBands. -/

/-- utils.py ndvi(nir, red, bandname): add (NIR-RED)/(NIR+RED). -/
def ndvi (nir red bandname : String) (image : Img P) : Img P :=
  addBands image (bandname, fun p =>
    (valB image nir p - valB image red p) / (valB image nir p + valB image red p))

/-- utils.py evi(nir, red, blue, G, C1, C2, L, bandname): add
G*((NIR-RED)/(NIR+(C1*RED)-(C2*BLUE)+L)). -/
def evi (nir red blue : String) (G C1 C2 L : ℝ) (bandname : String) (image : Img P) : Img P :=
  addBands image (bandname, fun p =>
    G * ((valB image nir p - valB image red p) /
      (valB image nir p + C1 * valB image red p - C2 * valB image blue p + L)))

/-- utils.py savi(nir, red, L, G, bandname): add
((NIR - RED) / (NIR + RED + L)) * G. -/
def savi (nir red : String) (L G : ℝ) (bandname : String) (image : Img P) : Img P :=
  addBands image (bandname, fun p =>
    (valB image nir p - valB image red p) / (valB image nir p + valB image red p + L) * G)

/-- utils.py msavi(nir, red, G, H, L, bandname): add
(G * NIR + L - sqrt(pow(G * NIR + L, 2) - H*(NIR - RED)))/2. -/
def msavi (nir red : String) (G H L : ℝ) (bandname : String) (image : Img P) : Img P :=
  addBands image (bandname, fun p =>
    (G * valB image nir p + L -
      Real.sqrt ((G * valB image nir p + L) ^ 2 -
        H * (valB image nir p - valB image red p))) / 2)

/-- utils.py nirv(nir, red, bandname): add NIR * ((NIR - RED) / (NIR + RED)). -/
def nirv (nir red bandname : String) (image : Img P) : Img P :=
  addBands image (bandname, fun p =>
    valB image nir p * ((valB image nir p - valB image red p) /
      (valB image nir p + valB image red p)))

/-- utils.py ndwi(nir, swir, bandname): add (NIR - SWIR) / (NIR + SWIR). -/
def ndwi (nir swir bandname : String) (image : Img P) : Img P :=
  addBands image (bandname, fun p =>
    (valB image nir p - valB image swir p) / (valB image nir p + valB image swir p))

/-! ### Roy harmonization (utils.py lines 378-406)

Both functions select the six reflectance bands, multiply them by a
constant image of per-band slopes, add a constant image of per-band
intercepts, and write the results back with addBands(y, overwrite=True). -/

/-- The six reflectance bands rescaled by the Roy harmonization. -/
def royBands : List String := ["SR_B1", "SR_B2", "SR_B3", "SR_B4", "SR_B5", "SR_B7"]

/-- utils.py harmonizationRoy_fromETM_OLI (TM, Landsat 5, to OLI). -/
def harmonizationRoy_fromETM_OLI (img : Img P) : Img P :=
  addBandsOverwrite img
    (imgAddConsts [-0.0095, -0.0016, -0.0022, -0.0021, -0.0030, 0.0029]
      (imgMulConsts [0.9785, 0.9542, 0.9825, 1.0073, 1.0171, 0.9949]
        (selectNames royBands img)))

/-- utils.py harmonizationRoy_fromETMplus_OLI (ETM+, Landsat 7, to OLI). -/
def harmonizationRoy_fromETMplus_OLI (img : Img P) : Img P :=
  addBandsOverwrite img
    (imgAddConsts [0.0003, 0.0088, 0.0061, 0.0412, 0.0254, 0.0172]
      (imgMulConsts [0.8474, 0.8483, 0.9047, 0.8462, 0.8937, 0.9071]
        (selectNames royBands img)))

/-! ### The per-image band stack of get_landsat_collection

utils.py lines 63-69 (the identical chain appears in
landsat_functions.py lines 113-119): every image of the merged
collection is mapped through landsat578_cloud, then ndvi, ndwi, msavi,
evi and nirv with the band wiring written in the source, and finally
the five index bands are selected. -/

/-- The composition of the .map stages and final .select applied to each
image of the merged Landsat collection. -/
def landsat_band_stack (qaKeep : ℝ → Bool) (img : Img P) : Img P :=
  selectNames ["ndvi", "msavi", "evi", "nirv", "ndwi"]
    (nirv "SR_B4" "SR_B3" "nirv"
      (evi "SR_B4" "SR_B3" "SR_B1" 2.5 6 7.5 1 "evi"
        (msavi "SR_B4" "SR_B3" 2 8 1 "msavi"
          (ndwi "SR_B4" "SR_B5" "ndwi"
            (ndvi "SR_B4" "SR_B3" "ndvi"
              (landsat578_cloud qaKeep img))))))

/-- utils.py get_landsat_collection (the version imported by app.py),
from the merged per-sensor collection onwards: filterBounds, filterDate,
then the per-image band stack.  This version applies no metadata
CLOUD_COVER filter at all (contrast landsat_functions.get_landsat_collection). -/
def get_landsat_collection (merged : List (Img P)) (dateIni dateEnd : Date)
    (box : P → Bool) (qaKeep : ℝ → Bool) : List (Img P) :=
  (filterDate dateIni dateEnd (filterBounds box merged)).map (landsat_band_stack qaKeep)

/-! ### make_composite (utils.py lines 80-131, same code in
landsat_functions.py lines 125-166)

The collection is sorted by system:time_start; the first and last years
present bound an inclusive year list; for each year the collection is
filtered to the box and to [fromYMD(y, startMonth, 1),
fromYMD(y, endMonth, 31)) and reduced to a median composite that is
clipped to the box and stamped with the start date.  The crs /
dimensions / start_month / end_month metadata set on each composite is
not modelled, as no claim mentions it. -/

/-- The inclusive list of years ee.List.sequence(startYear, endYear). -/
def yearsRange (startYear endYear : ℤ) : List ℤ :=
  (List.range (endYear - startYear + 1).toNat).map (fun k : ℕ => startYear + (k : ℤ))

/-- The per-year composite built inside make_composite. -/
def get_annual_median_composite (collection_sorted : List (Img P))
    (startMonth endMonth : ℤ) (box : P → Bool) (year : ℤ) : Img P :=
  setTime ⟨year, startMonth, 1⟩
    (clip box
      (icMedian (filterDate ⟨year, startMonth, 1⟩ ⟨year, endMonth, 31⟩
        (filterBounds box collection_sorted))))

/-- utils.py make_composite: one median composite per year from the
earliest to the latest year present in the collection. -/
def make_composite (collection : List (Img P)) (startMonth endMonth : ℤ)
    (box : P → Bool) : List (Img P) :=
  let collection_sorted := sortByTime collection
  let startYear := (minDate (collection_sorted.map (fun i => i.time))).year
  let endYear := (maxDate (collection_sorted.map (fun i => i.time))).year
  (yearsRange startYear endYear).map
    (get_annual_median_composite collection_sorted startMonth endMonth box)

/-! ### anomaly_processing (app.py lines 57-121; the function of the
same name in anomaly_processing.py lines 45-109 has the identical
z-score tail and the same vegetation-index branch)

The province/soum feature collection lookup is abstracted into the
region geom; the cloud-free collection produced by
get_landsat_collection is the parameter landsat_collection.  The
selected vegetation index chooses a band of the summer composites via
the if/elif chain; note that the SAVI branch selects the msavi band. -/

/-- The if/elif chain of app.py lines 87-92: the composite band selected
for each value of selectedVegetationIndex (none means no branch matched
and summer_composite stays unbound, a runtime error). -/
def vegBand (selected_vegetation_index : String) : Option String :=
  if selected_vegetation_index = "NDVI" then some "ndvi"
  else if selected_vegetation_index = "EVI" then some "evi"
  else if selected_vegetation_index = "SAVI" then some "msavi"
  else none

/-- app.py anomaly_processing from the assembled Landsat collection
onwards.  Returns none on the error paths (no vegetation-index branch
matched, or first() of an empty filtered collection). -/
def anomaly_processing (landsat_collection : List (Img P)) (geom : P → Bool)
    (selected_vegetation_index : String) (selected_year : ℤ)
    (grazing_only : Bool) (summer_pasture_mask : P → ℝ) : Option (Img P) :=
  match vegBand selected_vegetation_index with
  | none => none
  | some b =>
    let summer_composite₀ :=
      (make_composite landsat_collection 6 8 geom).map (selectNames [b])
    let summer_composite :=
      if grazing_only then
        summer_composite₀.map (image_mask summer_pasture_mask [3])
      else summer_composite₀
    match icFirst (filterDate ⟨selected_year, 1, 1⟩ ⟨selected_year, 12, 31⟩
        summer_composite) with
    | none => none
    | some selected_image =>
      let yMean := icMean summer_composite
      let stdImg := icReduceStdDev summer_composite
      some (selectIdx 0 "z_score" (clip geom (imgDiv (imgSub selected_image yMean) stdImg)))

/-! ### Named sub-expressions of the pipeline, for stating properties -/

/-- The filtered collection whose median forms the composite of one
year: the images of the (sorted) collection within the box and within
[fromYMD(y, startMonth, 1), fromYMD(y, endMonth, 31)).  This is exactly
the collection reduced inside get_annual_median_composite. -/
def summer_window (collection : List (Img P)) (startMonth endMonth : ℤ)
    (box : P → Bool) (year : ℤ) : List (Img P) :=
  filterDate ⟨year, startMonth, 1⟩ ⟨year, endMonth, 31⟩
    (filterBounds box (sortByTime collection))

/-- The summer_composite collection of anomaly_processing for composite
band b: the make_composite output restricted to b, with the pasture mask
applied when grazing_only is set.  This names the let-bound
summer_composite of anomaly_processing. -/
def summer_composite_model (landsat_collection : List (Img P)) (geom : P → Bool)
    (b : String) (grazing_only : Bool) (summer_pasture_mask : P → ℝ) : List (Img P) :=
  let s := (make_composite landsat_collection 6 8 geom).map (selectNames [b])
  if grazing_only then s.map (image_mask summer_pasture_mask [3]) else s

/-! ### Concrete inputs used by the witnesses -/

/-- A single-pixel Landsat surface-reflectance image used as a concrete
input (SR_B4 = 1/2, SR_B3 = 0). -/
def testImg : Img Unit :=
  { bands := [("SR_B1", fun _ => 1/10), ("SR_B2", fun _ => 1/5),
      ("SR_B3", fun _ => 0), ("SR_B4", fun _ => 1/2), ("SR_B5", fun _ => 2/5),
      ("SR_B7", fun _ => 7/10), ("QA_PIXEL", fun _ => 0)],
    mask := fun _ => true, time := ⟨2020, 6, 15⟩, intersects := fun _ => true }

/-- A single-pixel one-band image dated June 15 2017 with ndvi 0. -/
def wImgA : Img Unit :=
  { bands := [("ndvi", fun _ => 0)], mask := fun _ => true,
    time := ⟨2017, 6, 15⟩, intersects := fun _ => true }

/-- A single-pixel one-band image dated June 15 2018 with ndvi 2. -/
def wImgB : Img Unit :=
  { bands := [("ndvi", fun _ => 2)], mask := fun _ => true,
    time := ⟨2018, 6, 15⟩, intersects := fun _ => true }

end

/-! ## Theorems -/

/-! ### Claim C8: the authentication fallback -/

/-- C8: at program initialization ee.Initialize() is attempted once;
exactly when it raises, the except block performs one fallback of
ee.Authenticate() followed by a second ee.Initialize() and nothing more;
when the first ee.Initialize() succeeds, ee.Authenticate() is never
called. -/
theorem c8_init_fallback :
    ee_init_trace false = [EEInitCall.initCall] ∧
    ee_init_trace true =
      [EEInitCall.initCall, EEInitCall.authCall, EEInitCall.initCall] ∧
    (∀ b : Bool, (ee_init_trace b).head? = some EEInitCall.initCall) ∧
    (∀ b : Bool, EEInitCall.authCall ∈ ee_init_trace b ↔ b = true) := by
  refine ⟨rfl, rfl, ?_, ?_⟩ <;> intro b <;> cases b <;> decide

/-! ### Claim C9: request validation in the POST handler -/

/-- C9: the handler returns the 400 error response exactly when one of
the five JSON fields is absent or null; when all five are present (in
particular grazingOnly equal to false), it instead invokes
anomaly_processing on the five values, so no processing happens on the
400 path. -/
theorem c9_handler_validation {A B C D E : Type}
    (province : Option A) (soum : Option B) (veg : Option C)
    (year : Option D) (grazing : Option E) :
    (fetch_anomaly_map_data province soum veg year grazing =
        FetchResult.badRequest 400 "Missing required fields in the request." ↔
      (province = none ∨ soum = none ∨ veg = none ∨ year = none ∨ grazing = none)) ∧
    (∀ a b c d e, province = some a → soum = some b → veg = some c →
      year = some d → grazing = some e →
      fetch_anomaly_map_data province soum veg year grazing =
        FetchResult.processed a b c d e) := by
  cases province <;> cases soum <;> cases veg <;> cases year <;> cases grazing <;>
    simp [fetch_anomaly_map_data]
  exact fun a b c d e h1 h2 h3 h4 h5 => ⟨h1, h2, h3, h4, h5⟩

/-- C9 witness: a request with all five fields present and grazingOnly
false is processed; dropping selectedYear yields the 400 error. -/
theorem c9_witness :
    fetch_anomaly_map_data (some "Arkhangai") (some "Ikhtamir") (some "NDVI")
        (some (2020 : ℤ)) (some false) =
      FetchResult.processed "Arkhangai" "Ikhtamir" "NDVI" (2020 : ℤ) false ∧
    fetch_anomaly_map_data (some "Arkhangai") (some "Ikhtamir") (some "NDVI")
        (none : Option ℤ) (some false) =
      FetchResult.badRequest 400 "Missing required fields in the request." := by
  constructor
  · exact (c9_handler_validation (some "Arkhangai") (some "Ikhtamir") (some "NDVI")
      (some (2020 : ℤ)) (some false)).2 _ _ _ _ _ rfl rfl rfl rfl rfl
  · exact (c9_handler_validation (some "Arkhangai") (some "Ikhtamir") (some "NDVI")
      (none : Option ℤ) (some false)).1.mpr (by simp)

/-! ### Claim C10: bitwiseExtract -/

/-- C10: for fromBit &le; toBit, bitwiseExtract equals the shifted value
masked to toBit - fromBit + 1 bits, that is the integer formed by bits
fromBit through toBit; and every single-bit cloud flag computed by
landsat578_cloud is 0 or 1. -/
theorem c10_bitwiseExtract (x fromBit toBit : ℕ) (h : fromBit ≤ toBit) :
    bitwiseExtract x fromBit toBit =
      (x >>> fromBit) &&& (2 ^ (toBit - fromBit + 1) - 1) ∧
    bitwiseExtract x fromBit toBit = x / 2 ^ fromBit % 2 ^ (toBit - fromBit + 1) ∧
    ∀ qa : ℕ, ∀ v ∈ landsat578_cloud_flags qa, v = 0 ∨ v = 1 := by
  have hsize : 1 + toBit - fromBit = toBit - fromBit + 1 := by omega
  refine ⟨?_, ?_, ?_⟩
  · rw [bitwiseExtract, hsize, Nat.one_shiftLeft]
  · rw [bitwiseExtract, hsize, Nat.one_shiftLeft,
      Nat.and_pow_two_sub_one_eq_mod, Nat.shiftRight_eq_div_pow]
  · intro qa v hv
    have h01 : ∀ i : ℕ, bitwiseExtract qa i i = 0 ∨ bitwiseExtract qa i i = 1 := by
      intro i
      have : bitwiseExtract qa i i = (qa >>> i) % 2 := by
        rw [bitwiseExtract]
        have h1 : 1 + i - i = 1 := by omega
        rw [h1]
        exact Nat.and_one_is_mod (qa >>> i)
      omega
    simp only [landsat578_cloud_flags, List.mem_cons, List.mem_singleton,
      List.not_mem_nil, or_false] at hv
    rcases hv with h1 | h2 | h3 | h4
    · rw [h1]; exact h01 1
    · rw [h2]; exact h01 2
    · rw [h3]; exact h01 3
    · rw [h4]; exact h01 4

/-- C10 witness: bits 2..4 of 52 = 0b110100 are 0b101 = 5. -/
theorem c10_witness :
    (2 : ℕ) ≤ 4 ∧
    (bitwiseExtract 52 2 4 = (52 >>> 2) &&& (2 ^ (4 - 2 + 1) - 1) ∧
      bitwiseExtract 52 2 4 = 52 / 2 ^ 2 % 2 ^ (4 - 2 + 1) ∧
      ∀ qa : ℕ, ∀ v ∈ landsat578_cloud_flags qa, v = 0 ∨ v = 1) :=
  ⟨by decide, c10_bitwiseExtract 52 2 4 (by decide)⟩

/-! ### Claim C3: metadata cloud-cover filtering -/

/-- C3 (code bug): with threshold 20, a scene of cloud cover 10 inside
the box and date range is EXCLUDED from the collection assembled by
landsat_functions.get_landsat_collection while a scene of cloud cover 50
is kept, because the source filters with ee.Filter.gt("CLOUD_COVER", t)
instead of a less-than filter; this contradicts the function's own
docstring ("Percentage cloud cover (0-100) to filter",
"RETURN: the best quality landsat image collection"). -/
theorem c3_cloud_filter_code_bug :
    landsat_functions.get_landsat_collection
        [{ cloudCover := 10, timeKey := 5, intersectsBox := true },
         { cloudCover := 50, timeKey := 5, intersectsBox := true }] 0 10 20 =
      [{ cloudCover := 50, timeKey := 5, intersectsBox := true }] ∧
    ({ cloudCover := 10, timeKey := 5, intersectsBox := true } : Scene) ∉
      landsat_functions.get_landsat_collection
        [{ cloudCover := 10, timeKey := 5, intersectsBox := true },
         { cloudCover := 50, timeKey := 5, intersectsBox := true }] 0 10 20 ∧
    (10 : ℚ) ≤ 20 ∧ (20 : ℚ) < 50 := by
  refine ⟨by decide, by decide, by norm_num, by norm_num⟩

/-! ### Claim C4: GeoJSON conversion -/

/-- C4: given the three fetched lists with lats and lons at least as
long as pixel_values, convert_gee_image_to_geojson returns the JSON
string of a FeatureCollection with exactly len(pixel_values) features,
the i-th being a Point at [lons[i], lats[i]] whose single property
z_score is pixel_values[i]. -/
theorem c4_convert_geojson (pixel_values lats lons : List ℚ)
    (hlat : pixel_values.length ≤ lats.length)
    (hlon : pixel_values.length ≤ lons.length) :
    convert_gee_image_to_geojson pixel_values lats lons =
      Json.dumps (geojsonData pixel_values lats lons) ∧
    ∃ fs : List Json,
      geojsonData pixel_values lats lons =
        Json.obj [("type", Json.str "FeatureCollection"), ("features", Json.arr fs)] ∧
      fs.length = pixel_values.length ∧
      ∀ i, ∀ hi : i < pixel_values.length,
        fs.getD i Json.null =
          geojsonFeature (lons.get ⟨i, lt_of_lt_of_le hi hlon⟩)
            (lats.get ⟨i, lt_of_lt_of_le hi hlat⟩)
            (pixel_values.get ⟨i, hi⟩) := by
  constructor
  · rfl
  refine ⟨_, rfl, by simp [geojsonData], ?_⟩
  intro i hi
  have e1 : lons.getD i 0 = lons.get ⟨i, lt_of_lt_of_le hi hlon⟩ := by
    rw [List.getD_eq_getElem?_getD, List.getElem?_eq_getElem (lt_of_lt_of_le hi hlon)]
    simp [List.get_eq_getElem]
  have e2 : lats.getD i 0 = lats.get ⟨i, lt_of_lt_of_le hi hlat⟩ := by
    rw [List.getD_eq_getElem?_getD, List.getElem?_eq_getElem (lt_of_lt_of_le hi hlat)]
    simp [List.get_eq_getElem]
  have e3 : pixel_values.getD i 0 = pixel_values.get ⟨i, hi⟩ := by
    rw [List.getD_eq_getElem?_getD, List.getElem?_eq_getElem hi]
    simp [List.get_eq_getElem]
  rw [List.getD_eq_getElem?_getD, List.getElem?_map, List.getElem?_range hi]
  simp only [Option.map_some', Option.getD_some]
  rw [e1, e2, e3]

/-- C4 witness: two pixel values with two coordinates produce a
FeatureCollection of exactly two features. -/
theorem c4_witness :
    (([(3 : ℚ)/2, -2] : List ℚ).length ≤ ([(47 : ℚ), 48] : List ℚ).length) ∧
    convert_gee_image_to_geojson [(3 : ℚ)/2, -2] [47, 48] [101, 102] =
      Json.dumps (geojsonData [(3 : ℚ)/2, -2] [47, 48] [101, 102]) ∧
    ∃ fs : List Json,
      geojsonData [(3 : ℚ)/2, -2] [47, 48] [101, 102] =
        Json.obj [("type", Json.str "FeatureCollection"), ("features", Json.arr fs)] ∧
      fs.length = 2 := by
  refine ⟨by decide, ?_, ?_⟩
  · exact (c4_convert_geojson [(3 : ℚ)/2, -2] [47, 48] [101, 102]
      (by decide) (by decide)).1
  · obtain ⟨fs, hfs, hlen, -⟩ := (c4_convert_geojson [(3 : ℚ)/2, -2] [47, 48] [101, 102]
      (by decide) (by decide)).2
    exact ⟨fs, hfs, hlen⟩

/-! ### Association-list lemmas shared by the image-model proofs -/

/-- Lookup in a list of pairs built by tagging each name with a value
computed from it. -/
theorem lookup_name_map {A : Type} (names : List String) (g : String → A) (b : String) :
    List.lookup b (names.map (fun n => (n, g n))) =
      if b ∈ names then some (g b) else none := by
  induction names with
  | nil => simp
  | cons a tl ih =>
    by_cases h : b = a
    · subst h
      simp [List.lookup_cons]
    · have hba : (b == a) = false := beq_eq_false_iff_ne.mpr h
      simp [List.lookup_cons, hba, h, ih]

/-- Lookup distributes over append when the key is found on the left. -/
theorem lookup_append_some {A : Type} {l1 : List (String × A)} (l2 : List (String × A))
    {b : String} {f : A} (h : List.lookup b l1 = some f) :
    List.lookup b (l1 ++ l2) = some f := by
  induction l1 with
  | nil => simp at h
  | cons nf tl ih =>
    rw [List.cons_append, List.lookup_cons] at *
    cases hba : (b == nf.1) with
    | true => simpa [hba] using h
    | false =>
      simp only [hba] at h ⊢
      exact ih h

/-- Lookup distributes over append when the key is absent on the left. -/
theorem lookup_append_none {A : Type} {l1 : List (String × A)} (l2 : List (String × A))
    {b : String} (h : List.lookup b l1 = none) :
    List.lookup b (l1 ++ l2) = List.lookup b l2 := by
  induction l1 with
  | nil => simp
  | cons nf tl ih =>
    rw [List.cons_append, List.lookup_cons] at *
    cases hba : (b == nf.1) with
    | true => simp [hba] at h
    | false =>
      simp only [hba] at h ⊢
      exact ih h

/-- Appending a band with a different name does not change a lookup. -/
theorem lookup_append_single_ne {A : Type} (l : List (String × A)) (m : String) (f : A)
    {b : String} (h : b ≠ m) :
    List.lookup b (l ++ [(m, f)]) = List.lookup b l := by
  cases hl : List.lookup b l with
  | some g => simp [lookup_append_some _ hl, hl]
  | none => simp [lookup_append_none _ hl, hl, List.lookup_cons, beq_eq_false_iff_ne.mpr h]

/-- Appending a band with a fresh name makes it found by lookup. -/
theorem lookup_append_single_self {A : Type} {l : List (String × A)} (b : String) (f : A)
    (h : List.lookup b l = none) :
    List.lookup b (l ++ [(b, f)]) = some f := by
  rw [lookup_append_none _ h, List.lookup_cons]
  simp

/-- A key occurs among the first components iff lookup finds it. -/
theorem mem_keys_iff_lookup_isSome {A : Type} (l : List (String × A)) (b : String) :
    b ∈ l.map (fun nf => nf.1) ↔ (List.lookup b l).isSome := by
  induction l with
  | nil => simp
  | cons nf tl ih =>
    rw [List.map_cons, List.mem_cons, List.lookup_cons]
    by_cases h : b = nf.1
    · subst h; simp
    · have hba : (b == nf.1) = false := beq_eq_false_iff_ne.mpr h
      simp [h, hba, ih]

/-- Lookup fails when the key differs from every first component. -/
theorem lookup_eq_none_of_keys_ne {A : Type} {l : List (String × A)} {b : String}
    (h : ∀ nf ∈ l, nf.1 ≠ b) : List.lookup b l = none := by
  induction l with
  | nil => rfl
  | cons nf tl ih =>
    rw [List.lookup_cons]
    have hb : (b == nf.1) = false :=
      beq_eq_false_iff_ne.mpr (fun e => h nf (by simp) e.symm)
    simp only [hb]
    exact ih (fun x hx => h x (List.mem_cons_of_mem _ hx))

/-- Lookup through a map that rewrites each value from its key. -/
theorem lookup_map_overwrite {A : Type} (l : List (String × A)) (F : String → A → A)
    (b : String) :
    List.lookup b (l.map (fun nf => (nf.1, F nf.1 nf.2))) =
      (List.lookup b l).map (F b) := by
  induction l with
  | nil => simp
  | cons nf tl ih =>
    rw [List.map_cons, List.lookup_cons, List.lookup_cons]
    cases hba : (b == nf.1) with
    | true =>
      have : b = nf.1 := eq_of_beq hba
      subst this
      simp
    | false => simpa using ih

/-- Lookup in the band list produced by selectNames. -/
theorem lookup_selectNames {A : Type} (names : List String) (l : List (String × A))
    (b : String) :
    List.lookup b (names.filterMap (fun n => (List.lookup n l).map (fun f => (n, f)))) =
      if b ∈ names then List.lookup b l else none := by
  induction names with
  | nil => simp
  | cons a tl ih =>
    by_cases h : b = a
    · subst h
      cases hl : List.lookup b l with
      | some f => simp [List.filterMap_cons, hl, List.lookup_cons]
      | none => simp [List.filterMap_cons, hl, ih]
    · have hba : (b == a) = false := beq_eq_false_iff_ne.mpr h
      cases hl : List.lookup a l with
      | some f => simp [List.filterMap_cons, hl, List.lookup_cons, hba, h, ih]
      | none => simp [List.filterMap_cons, hl, h, ih]

/-! ### Projection and valB lemmas for the image operations -/

/-- Bands of addBands. -/
theorem addBands_bands {P : Type} (img : Img P) (nb : String × (P → ℝ)) :
    (addBands img nb).bands = img.bands ++ [nb] := rfl

/-- Bands of the cloud-mask stage are those of the input. -/
theorem landsat578_cloud_bands {P : Type} (qaKeep : ℝ → Bool) (img : Img P) :
    (landsat578_cloud qaKeep img).bands = img.bands := rfl

/-- Bands of selectNames. -/
theorem selectNames_bands {P : Type} (names : List String) (img : Img P) :
    (selectNames names img).bands =
      names.filterMap (fun n => (img.bands.lookup n).map (fun f => (n, f))) := rfl

/-- valB when the lookup succeeds. -/
theorem valB_of_lookup_eq_some {P : Type} {img : Img P} {b : String} {f : P → ℝ}
    (h : img.bands.lookup b = some f) (p : P) : valB img b p = f p := by
  simp [valB, h]

/-- valB when the lookup fails. -/
theorem valB_of_lookup_eq_none {P : Type} {img : Img P} {b : String}
    (h : img.bands.lookup b = none) (p : P) : valB img b p = 0 := by
  simp [valB, h]

/-- A name not among the band names cannot be looked up. -/
theorem lookup_eq_none_of_not_mem_bandNames {P : Type} {img : Img P} {b : String}
    (h : b ∉ bandNames img) : img.bands.lookup b = none := by
  rw [← Option.not_isSome_iff_eq_none]
  intro hs
  exact h ((mem_keys_iff_lookup_isSome _ _).mpr hs)

/-- A band name can be looked up. -/
theorem lookup_isSome_of_mem_bandNames {P : Type} {img : Img P} {b : String}
    (h : b ∈ bandNames img) : (img.bands.lookup b).isSome :=
  (mem_keys_iff_lookup_isSome _ _).mp h

/-! ### Claim C5: the ndvi band function and its wiring -/

/-- C5: for every image, ndvi(nir, red, bandname) adds exactly one band,
named bandname, whose per-pixel value is (NIR - RED) / (NIR + RED) of
the selected bands, leaving every pre-existing band unchanged; and in
the Landsat band stack it is wired with nir = SR_B4 and red = SR_B3, so
the stacked ndvi band carries (SR_B4 - SR_B3) / (SR_B4 + SR_B3). -/
theorem c5_ndvi {P : Type} :
    (∀ (img : Img P) (nir red bandname : String) (p : P), bandname ∉ bandNames img →
      bandNames (ndvi nir red bandname img) = bandNames img ++ [bandname] ∧
      valB (ndvi nir red bandname img) bandname p =
        (valB img nir p - valB img red p) / (valB img nir p + valB img red p) ∧
      (∀ bb ∈ bandNames img, valB (ndvi nir red bandname img) bb p = valB img bb p)) ∧
    (∀ (qaKeep : ℝ → Bool) (img : Img P) (p : P), "ndvi" ∉ bandNames img →
      valB (landsat_band_stack qaKeep img) "ndvi" p =
        (valB img "SR_B4" p - valB img "SR_B3" p) /
          (valB img "SR_B4" p + valB img "SR_B3" p)) := by
  constructor
  · intro img nir red bandname p hfresh
    have hnone : img.bands.lookup bandname = none :=
      lookup_eq_none_of_not_mem_bandNames hfresh
    refine ⟨?_, ?_, ?_⟩
    · simp [ndvi, addBands, bandNames]
    · rw [ndvi, valB_of_lookup_eq_some
        (by rw [addBands_bands]; exact lookup_append_single_self _ _ hnone)]
    · intro bb hbb
      obtain ⟨f, hf⟩ := Option.isSome_iff_exists.mp (lookup_isSome_of_mem_bandNames hbb)
      rw [ndvi, valB_of_lookup_eq_some
        (by rw [addBands_bands]; exact lookup_append_some _ hf)]
      rw [valB_of_lookup_eq_some hf]
  · intro qaKeep img p hfresh
    have hnone : (landsat578_cloud qaKeep img).bands.lookup "ndvi" = none :=
      @lookup_eq_none_of_not_mem_bandNames P (landsat578_cloud qaKeep img) "ndvi" hfresh
    have hb : (landsat_band_stack qaKeep img).bands.lookup "ndvi" =
        some (fun q => (valB (landsat578_cloud qaKeep img) "SR_B4" q -
            valB (landsat578_cloud qaKeep img) "SR_B3" q) /
          (valB (landsat578_cloud qaKeep img) "SR_B4" q +
            valB (landsat578_cloud qaKeep img) "SR_B3" q)) := by
      rw [landsat_band_stack, selectNames_bands, lookup_selectNames,
        if_pos (by decide)]
      rw [nirv, addBands_bands, lookup_append_single_ne _ _ _ (by decide)]
      rw [evi, addBands_bands, lookup_append_single_ne _ _ _ (by decide)]
      rw [msavi, addBands_bands, lookup_append_single_ne _ _ _ (by decide)]
      rw [ndwi, addBands_bands, lookup_append_single_ne _ _ _ (by decide)]
      rw [ndvi, addBands_bands, lookup_append_single_self _ _ hnone]
    rw [valB_of_lookup_eq_some hb]
    rfl

/-- C5 witness: the stack over a concrete surface-reflectance image with
SR_B4 = 1/2 and SR_B3 = 0, and the ndvi band function on it. -/
theorem c5_witness :
    ("ndvi" ∉ bandNames testImg) ∧
    bandNames (ndvi "SR_B4" "SR_B3" "ndvi" testImg) = bandNames testImg ++ ["ndvi"] ∧
    valB (landsat_band_stack (fun _ => true) testImg) "ndvi" () =
      (valB testImg "SR_B4" () - valB testImg "SR_B3" ()) /
        (valB testImg "SR_B4" () + valB testImg "SR_B3" ()) := by
  have h : "ndvi" ∉ bandNames testImg := by
    simp [bandNames, testImg]
  exact ⟨h, (c5_ndvi.1 testImg "SR_B4" "SR_B3" "ndvi" () h).1,
    c5_ndvi.2 (fun _ => true) testImg () h⟩

/-! ### Claim C2: the band used for the SAVI selection -/

/-- Adding a band with a different name leaves valB unchanged. -/
theorem valB_addBands_ne {P : Type} (img : Img P) (nb : String × (P → ℝ))
    {b : String} (h : b ≠ nb.1) (p : P) :
    valB (addBands img nb) b p = valB img b p := by
  have hl : List.lookup b (img.bands ++ [nb]) = List.lookup b img.bands := by
    have := lookup_append_single_ne img.bands nb.1 nb.2 h
    simpa using this
  simp [valB, addBands_bands, hl]

/-- The msavi band attached by the Landsat band stack carries the MSAVI
expression with G = 2, H = 8, L = 1 over SR_B4 and SR_B3. -/
theorem stack_msavi_value {P : Type} (qaKeep : ℝ → Bool) (img : Img P) (p : P)
    (h : "msavi" ∉ bandNames img) :
    valB (landsat_band_stack qaKeep img) "msavi" p =
      (2 * valB img "SR_B4" p + 1 -
        Real.sqrt ((2 * valB img "SR_B4" p + 1) ^ 2 -
          8 * (valB img "SR_B4" p - valB img "SR_B3" p))) / 2 := by
  have hnone : (ndwi "SR_B4" "SR_B5" "ndwi" (ndvi "SR_B4" "SR_B3" "ndvi"
      (landsat578_cloud qaKeep img))).bands.lookup "msavi" = none := by
    rw [ndwi, addBands_bands, lookup_append_single_ne _ _ _ (by decide)]
    rw [ndvi, addBands_bands, lookup_append_single_ne _ _ _ (by decide)]
    exact @lookup_eq_none_of_not_mem_bandNames P (landsat578_cloud qaKeep img) "msavi" h
  have hb : (landsat_band_stack qaKeep img).bands.lookup "msavi" =
      some (fun q =>
        (2 * valB (ndwi "SR_B4" "SR_B5" "ndwi" (ndvi "SR_B4" "SR_B3" "ndvi"
            (landsat578_cloud qaKeep img))) "SR_B4" q + 1 -
          Real.sqrt ((2 * valB (ndwi "SR_B4" "SR_B5" "ndwi" (ndvi "SR_B4" "SR_B3" "ndvi"
              (landsat578_cloud qaKeep img))) "SR_B4" q + 1) ^ 2 -
            8 * (valB (ndwi "SR_B4" "SR_B5" "ndwi" (ndvi "SR_B4" "SR_B3" "ndvi"
                (landsat578_cloud qaKeep img))) "SR_B4" q -
              valB (ndwi "SR_B4" "SR_B5" "ndwi" (ndvi "SR_B4" "SR_B3" "ndvi"
                (landsat578_cloud qaKeep img))) "SR_B3" q))) / 2) := by
    rw [landsat_band_stack, selectNames_bands, lookup_selectNames, if_pos (by decide)]
    rw [nirv, addBands_bands, lookup_append_single_ne _ _ _ (by decide)]
    rw [evi, addBands_bands, lookup_append_single_ne _ _ _ (by decide)]
    rw [msavi, addBands_bands, lookup_append_single_self _ _ hnone]
  have hval : ∀ (b : String), b ≠ "ndwi" → b ≠ "ndvi" →
      valB (ndwi "SR_B4" "SR_B5" "ndwi" (ndvi "SR_B4" "SR_B3" "ndvi"
        (landsat578_cloud qaKeep img))) b p = valB img b p := by
    intro b h1 h2
    rw [ndwi, valB_addBands_ne _ _ h1, ndvi, valB_addBands_ne _ _ h2]
    rfl
  simp only [valB_of_lookup_eq_some hb]
  rw [hval "SR_B4" (by decide) (by decide), hval "SR_B3" (by decide) (by decide)]

/-- C2 counterexample: on a concrete image with SR_B4 = 1/2 and
SR_B3 = 0 the branch for selectedVegetationIndex = SAVI selects the
msavi band, whose stacked value is 1, while the SAVI formula
((NIR - RED) / (NIR + RED + L)) * G of the source savi function
(L = 0.5, G = 1.5) gives 3/4; so the band used is not the SAVI index. -/
theorem c2_savi_counterexample :
    vegBand "SAVI" = some "msavi" ∧
    valB (landsat_band_stack (fun _ => true) testImg) "msavi" () = 1 ∧
    valB (savi "SR_B4" "SR_B3" (1/2) (3/2) "savi" testImg) "savi" () = 3/4 ∧
    (1 : ℝ) ≠ 3/4 := by
  have hmem : "msavi" ∉ bandNames testImg := by simp [bandNames, testImg]
  have h4 : testImg.bands.lookup "SR_B4" = some (fun _ => 1/2) := rfl
  have h3 : testImg.bands.lookup "SR_B3" = some (fun _ => 0) := rfl
  refine ⟨rfl, ?_, ?_, by norm_num⟩
  · rw [stack_msavi_value (fun _ => true) testImg () hmem]
    simp only [valB_of_lookup_eq_some h4, valB_of_lookup_eq_some h3]
    rw [show (2 * (1/2 : ℝ) + 1) ^ 2 - 8 * (1/2 - 0) = 0 by norm_num, Real.sqrt_zero]
    norm_num
  · have h5 : "savi" ∉ bandNames testImg := by simp [bandNames, testImg]
    rw [savi, valB_of_lookup_eq_some (by
      rw [addBands_bands]
      exact lookup_append_single_self _ _ (lookup_eq_none_of_not_mem_bandNames h5))]
    simp only [valB_of_lookup_eq_some h4, valB_of_lookup_eq_some h3]
    norm_num

/-- C2 amended: when selectedVegetationIndex is SAVI the pipeline uses
the msavi band of the summer composites, and the msavi band built by the
Landsat band stack carries the MSAVI expression
(G*NIR + L - sqrt((G*NIR + L)^2 - H*(NIR - RED))) / 2 with G = 2, H = 8,
L = 1 over SR_B4 and SR_B3 (not the SAVI expression). -/
theorem c2_savi_selects_msavi {P : Type} :
    vegBand "SAVI" = some "msavi" ∧
    ∀ (qaKeep : ℝ → Bool) (img : Img P) (p : P), "msavi" ∉ bandNames img →
      valB (landsat_band_stack qaKeep img) "msavi" p =
        (2 * valB img "SR_B4" p + 1 -
          Real.sqrt ((2 * valB img "SR_B4" p + 1) ^ 2 -
            8 * (valB img "SR_B4" p - valB img "SR_B3" p))) / 2 :=
  ⟨rfl, fun qaKeep img p h => stack_msavi_value qaKeep img p h⟩

/-- C2 witness: the amended claim evaluated on the concrete image. -/
theorem c2_witness :
    ("msavi" ∉ bandNames testImg) ∧
    valB (landsat_band_stack (fun _ => true) testImg) "msavi" () =
      (2 * valB testImg "SR_B4" () + 1 -
        Real.sqrt ((2 * valB testImg "SR_B4" () + 1) ^ 2 -
          8 * (valB testImg "SR_B4" () - valB testImg "SR_B3" ()))) / 2 := by
  have hmem : "msavi" ∉ bandNames testImg := by simp [bandNames, testImg]
  exact ⟨hmem, c2_savi_selects_msavi.2 (fun _ => true) testImg () hmem⟩

/-! ### Date minimum and maximum lemmas (reduceColumns minMax) -/

/-- The running minimum stays among the inputs. -/
theorem foldl_min_key_mem (ds : List Date) (d : Date) :
    ds.foldl (fun a b => if b.key < a.key then b else a) d ∈ d :: ds := by
  induction ds generalizing d with
  | nil => simp
  | cons b tl ih =>
    rw [List.foldl_cons]
    have h := ih (if b.key < d.key then b else d)
    by_cases hc : b.key < d.key
    · simp only [if_pos hc] at h ⊢
      exact List.mem_cons_of_mem _ h
    · simp only [if_neg hc] at h ⊢
      rcases List.mem_cons.mp h with h1 | h1
      · rw [h1]; exact List.mem_cons_self _ _
      · exact List.mem_cons_of_mem _ (List.mem_cons_of_mem _ h1)

/-- The running minimum is below every input. -/
theorem foldl_min_key_le (ds : List Date) (d : Date) :
    ∀ x ∈ d :: ds,
      (ds.foldl (fun a b => if b.key < a.key then b else a) d).key ≤ x.key := by
  induction ds generalizing d with
  | nil =>
    intro x hx
    rw [List.mem_singleton] at hx
    rw [hx]
    exact le_rfl
  | cons b tl ih =>
    intro x hx
    rw [List.foldl_cons]
    have hle_d : (if b.key < d.key then b else d).key ≤ d.key := by split <;> omega
    have hle_b : (if b.key < d.key then b else d).key ≤ b.key := by split <;> omega
    have hr_head := ih (if b.key < d.key then b else d) _ (List.mem_cons_self _ _)
    rcases List.mem_cons.mp hx with h1 | h1
    · rw [h1]; exact le_trans hr_head hle_d
    rcases List.mem_cons.mp h1 with h2 | h2
    · rw [h2]; exact le_trans hr_head hle_b
    · exact ih _ x (List.mem_cons_of_mem _ h2)

/-- The running maximum stays among the inputs. -/
theorem foldl_max_key_mem (ds : List Date) (d : Date) :
    ds.foldl (fun a b => if a.key < b.key then b else a) d ∈ d :: ds := by
  induction ds generalizing d with
  | nil => simp
  | cons b tl ih =>
    rw [List.foldl_cons]
    have h := ih (if d.key < b.key then b else d)
    by_cases hc : d.key < b.key
    · simp only [if_pos hc] at h ⊢
      exact List.mem_cons_of_mem _ h
    · simp only [if_neg hc] at h ⊢
      rcases List.mem_cons.mp h with h1 | h1
      · rw [h1]; exact List.mem_cons_self _ _
      · exact List.mem_cons_of_mem _ (List.mem_cons_of_mem _ h1)

/-- The running maximum is above every input. -/
theorem foldl_max_key_le (ds : List Date) (d : Date) :
    ∀ x ∈ d :: ds,
      x.key ≤ (ds.foldl (fun a b => if a.key < b.key then b else a) d).key := by
  induction ds generalizing d with
  | nil =>
    intro x hx
    rw [List.mem_singleton] at hx
    rw [hx]
    exact le_rfl
  | cons b tl ih =>
    intro x hx
    rw [List.foldl_cons]
    have hge_d : d.key ≤ (if d.key < b.key then b else d).key := by split <;> omega
    have hge_b : b.key ≤ (if d.key < b.key then b else d).key := by split <;> omega
    have hr_head := ih (if d.key < b.key then b else d) _ (List.mem_cons_self _ _)
    rcases List.mem_cons.mp hx with h1 | h1
    · rw [h1]; exact le_trans hge_d hr_head
    rcases List.mem_cons.mp h1 with h2 | h2
    · rw [h2]; exact le_trans hge_b hr_head
    · exact ih _ x (List.mem_cons_of_mem _ h2)

/-- minDate of a non-empty list is one of its elements. -/
theorem minDate_mem : ∀ (ds : List Date), ds ≠ [] → minDate ds ∈ ds
  | [], h => absurd rfl h
  | d :: tl, _ => foldl_min_key_mem tl d

/-- minDate is below every element. -/
theorem minDate_le : ∀ (ds : List Date), ∀ x ∈ ds, (minDate ds).key ≤ x.key
  | [] => by simp
  | d :: tl => fun x hx => foldl_min_key_le tl d x hx

/-- maxDate of a non-empty list is one of its elements. -/
theorem maxDate_mem : ∀ (ds : List Date), ds ≠ [] → maxDate ds ∈ ds
  | [], h => absurd rfl h
  | d :: tl, _ => foldl_max_key_mem tl d

/-- maxDate is above every element. -/
theorem maxDate_le : ∀ (ds : List Date), ∀ x ∈ ds, x.key ≤ (maxDate ds).key
  | [] => by simp
  | d :: tl => fun x hx => foldl_max_key_le tl d x hx

/-! ### Structure lemmas for make_composite -/

/-- Length of the composite list: one image per year in the inclusive
range. -/
theorem make_composite_length {P : Type} (cs : List (Img P)) (sm em : ℤ)
    (box : P → Bool) :
    (make_composite cs sm em box).length =
      ((maxDate ((sortByTime cs).map (fun i => i.time))).year -
        (minDate ((sortByTime cs).map (fun i => i.time))).year + 1).toNat := by
  show ((yearsRange _ _).map _).length = _
  rw [List.length_map, yearsRange, List.length_map, List.length_range]

/-- The k-th composite is the annual composite of year startYear + k. -/
theorem make_composite_get {P : Type} (cs : List (Img P)) (sm em : ℤ)
    (box : P → Bool) (k : ℕ) (hk : k < (make_composite cs sm em box).length) :
    (make_composite cs sm em box).get ⟨k, hk⟩ =
      get_annual_median_composite (sortByTime cs) sm em box
        ((minDate ((sortByTime cs).map (fun i => i.time))).year + k) := by
  simp only [make_composite, List.get_eq_getElem, yearsRange, List.getElem_map,
    List.getElem_range]

/-- The annual composite carries the start date as system:time_start. -/
theorem get_annual_median_composite_time {P : Type} (X : List (Img P)) (sm em : ℤ)
    (box : P → Bool) (y : ℤ) :
    (get_annual_median_composite X sm em box y).time = ⟨y, sm, 1⟩ := rfl

/-- The annual composite's mask: an unmasked input in the year window
and pixel inside the box. -/
theorem get_annual_median_composite_mask {P : Type} (X : List (Img P)) (sm em : ℤ)
    (box : P → Bool) (y : ℤ) (p : P) :
    (get_annual_median_composite X sm em box y).mask p =
      ((!(List.filter (fun i => i.mask p) (filterDate ⟨y, sm, 1⟩ ⟨y, em, 31⟩
          (filterBounds box X))).isEmpty) && box p) := rfl

/-- Bands of the annual composite. -/
theorem get_annual_median_composite_bands {P : Type} (X : List (Img P)) (sm em : ℤ)
    (box : P → Bool) (y : ℤ) :
    (get_annual_median_composite X sm em box y).bands =
      (headBandNames (filterDate ⟨y, sm, 1⟩ ⟨y, em, 31⟩ (filterBounds box X))).map
        (fun n => (n, fun p => listMedian (unmaskedVals
          (filterDate ⟨y, sm, 1⟩ ⟨y, em, 31⟩ (filterBounds box X)) n p))) := rfl

/-- valB of the annual composite on a reduced band is the median of the
unmasked window values. -/
theorem valB_get_annual_median_composite {P : Type} (X : List (Img P)) (sm em : ℤ)
    (box : P → Bool) (y : ℤ) (b : String) (p : P)
    (hb : b ∈ headBandNames (filterDate ⟨y, sm, 1⟩ ⟨y, em, 31⟩ (filterBounds box X))) :
    valB (get_annual_median_composite X sm em box y) b p =
      listMedian (unmaskedVals (filterDate ⟨y, sm, 1⟩ ⟨y, em, 31⟩
        (filterBounds box X)) b p) := by
  apply valB_of_lookup_eq_some
  rw [get_annual_median_composite_bands, lookup_name_map, if_pos hb]

/-- Membership in the summer window of a year. -/
theorem mem_summer_window {P : Type} (cs : List (Img P)) (sm em : ℤ)
    (box : P → Bool) (y : ℤ) (i : Img P) :
    i ∈ summer_window cs sm em box y ↔
      (i ∈ cs ∧ i.intersects box = true ∧
        (⟨y, sm, 1⟩ : Date).key ≤ i.time.key ∧
        i.time.key < (⟨y, em, 31⟩ : Date).key) := by
  simp only [summer_window, filterDate, filterBounds, List.mem_filter, sortByTime,
    List.mem_insertionSort, Bool.and_eq_true, decide_eq_true_eq]
  tauto

/-! ### Claim C7: make_composite -/

/-- Membership is invariant under the time sort. -/
theorem mem_sortByTime {P : Type} (cs : List (Img P)) (i : Img P) :
    i ∈ sortByTime cs ↔ i ∈ cs :=
  (List.perm_insertionSort _ cs).mem_iff

/-- C7: on a non-empty collection (with calendar-valid dates),
make_composite returns exactly one composite per year from the earliest
to the latest year present; the composite of year sY + k carries
system:time_start fromYMD(sY + k, startMonth, 1), is clipped to the
region, and on each reduced band its per-pixel value is the median of
the collection's images that intersect the region and are dated within
[fromYMD(y, startMonth, 1), fromYMD(y, endMonth, 31)) — the filterDate
end bound being exclusive. -/
theorem c7_make_composite {P : Type} (cs : List (Img P)) (startMonth endMonth : ℤ)
    (box : P → Bool) (sY eY : ℤ) (hne : cs ≠ [])
    (hsY : sY = (minDate ((sortByTime cs).map (fun i => i.time))).year)
    (heY : eY = (maxDate ((sortByTime cs).map (fun i => i.time))).year)
    (hvalid : ∀ i ∈ cs, 1 ≤ i.time.month ∧ i.time.month ≤ 12 ∧
      1 ≤ i.time.day ∧ i.time.day ≤ 31) :
    ((∃ i ∈ cs, i.time.year = sY) ∧ (∀ i ∈ cs, sY ≤ i.time.year) ∧
     (∃ i ∈ cs, i.time.year = eY) ∧ (∀ i ∈ cs, i.time.year ≤ eY)) ∧
    (make_composite cs startMonth endMonth box).length = (eY - sY + 1).toNat ∧
    (∀ k, ∀ hk : k < (make_composite cs startMonth endMonth box).length,
      ((make_composite cs startMonth endMonth box).get ⟨k, hk⟩).time =
        ⟨sY + k, startMonth, 1⟩ ∧
      (∀ p, box p = false →
        ((make_composite cs startMonth endMonth box).get ⟨k, hk⟩).mask p = false) ∧
      (∀ i : Img P, i ∈ summer_window cs startMonth endMonth box (sY + k) ↔
        (i ∈ cs ∧ i.intersects box = true ∧
          (⟨sY + k, startMonth, 1⟩ : Date).key ≤ i.time.key ∧
          i.time.key < (⟨sY + k, endMonth, 31⟩ : Date).key)) ∧
      (∀ b p, b ∈ headBandNames (summer_window cs startMonth endMonth box (sY + k)) →
        valB ((make_composite cs startMonth endMonth box).get ⟨k, hk⟩) b p =
          listMedian (unmaskedVals
            (summer_window cs startMonth endMonth box (sY + k)) b p))) := by
  have hds : ((sortByTime cs).map (fun i => i.time)) ≠ [] := by
    intro h
    have hlen := congrArg List.length h
    simp only [List.length_map, sortByTime, List.length_insertionSort,
      List.length_nil] at hlen
    exact hne (List.length_eq_zero.mp hlen)
  obtain ⟨imin, himin_mem, himin_eq⟩ := List.mem_map.mp (minDate_mem _ hds)
  obtain ⟨imax, himax_mem, himax_eq⟩ := List.mem_map.mp (maxDate_mem _ hds)
  have himin_cs : imin ∈ cs := (mem_sortByTime cs imin).mp himin_mem
  have himax_cs : imax ∈ cs := (mem_sortByTime cs imax).mp himax_mem
  refine ⟨⟨⟨imin, himin_cs, by rw [hsY, ← himin_eq]⟩, ?_,
      ⟨imax, himax_cs, by rw [heY, ← himax_eq]⟩, ?_⟩, ?_, ?_⟩
  · intro i hi
    have hk := minDate_le ((sortByTime cs).map (fun j => j.time)) i.time
      (List.mem_map_of_mem (fun j => j.time) ((mem_sortByTime cs i).mpr hi))
    have h1 := hvalid i hi
    have h2 := hvalid imin himin_cs
    rw [himin_eq] at h2
    rw [hsY]
    simp only [Date.key] at hk
    omega
  · intro i hi
    have hk := maxDate_le ((sortByTime cs).map (fun j => j.time)) i.time
      (List.mem_map_of_mem (fun j => j.time) ((mem_sortByTime cs i).mpr hi))
    have h1 := hvalid i hi
    have h2 := hvalid imax himax_cs
    rw [himax_eq] at h2
    rw [heY]
    simp only [Date.key] at hk
    omega
  · rw [make_composite_length, hsY, heY]
  · intro k hk
    rw [hsY]
    rw [make_composite_get cs startMonth endMonth box k hk]
    refine ⟨rfl, ?_, ?_, ?_⟩
    · intro p hp
      rw [get_annual_median_composite_mask, hp, Bool.and_false]
    · intro i
      exact mem_summer_window cs startMonth endMonth box _ i
    · intro b p hb
      exact valB_get_annual_median_composite _ _ _ _ _ _ _ hb

/-- C7 witness: a two-image collection (June 2017 and June 2018) yields
exactly two yearly composites. -/
theorem c7_witness :
    ([wImgA, wImgB] : List (Img Unit)) ≠ [] ∧
    (make_composite [wImgA, wImgB] 6 8 (fun _ => true)).length = 2 := by
  have h := c7_make_composite [wImgA, wImgB] 6 8 (fun _ => true) 2017 2018
    (by simp) (by decide) (by decide) (by decide)
  exact ⟨by simp, by rw [h.2.1]; decide⟩

/-! ### Claim C1: the z-score anomaly -/

/-- A filter whose predicate holds at exactly one index keeps exactly
that element. -/
theorem filter_eq_singleton_of_iff {α : Type} :
    ∀ (l : List α) (pr : α → Bool) (k0 : ℕ) (hk0 : k0 < l.length),
      (∀ k, ∀ hk : k < l.length, (pr (l.get ⟨k, hk⟩) = true ↔ k = k0)) →
      l.filter pr = [l.get ⟨k0, hk0⟩] := by
  intro l
  induction l with
  | nil => intro pr k0 hk0 h; simp at hk0
  | cons a tl ih =>
    intro pr k0 hk0 h
    cases k0 with
    | zero =>
      have ha : pr a = true := (h 0 (Nat.succ_pos _)).mpr rfl
      have htl : ∀ x ∈ tl, ¬(pr x = true) := by
        intro x hx hpx
        obtain ⟨⟨m, hm⟩, rfl⟩ := List.mem_iff_get.mp hx
        have hcontr := (h (m + 1) (Nat.succ_lt_succ hm)).mp (by simpa using hpx)
        omega
      rw [List.filter_cons, if_pos ha, List.filter_eq_nil_iff.mpr htl]
      rfl
    | succ m =>
      have ha : pr a = false := by
        by_contra hcontra
        have : pr a = true := by
          cases hpa : pr a with
          | true => rfl
          | false => exact absurd hpa hcontra
        have h0 := (h 0 (Nat.succ_pos _)).mp this
        omega
      have hm : m < tl.length := by
        have := hk0
        simp only [List.length_cons] at this
        omega
      have ih' := ih pr m hm (fun k hk => by
        have := h (k + 1) (Nat.succ_lt_succ hk)
        simp only [List.get_cons_succ] at this
        constructor
        · intro hp
          have := this.mp hp
          omega
        · intro hp
          exact this.mpr (by omega))
      rw [List.filter_cons, if_neg (by simp [ha]), ih']
      rfl

/-- Get through an equality with a map. -/
theorem get_map_of_eq {α β : Type} {l : List α} {f : α → β} {L : List β}
    (hL : L = l.map f) (k : ℕ) (hk : k < L.length) :
    ∃ hk' : k < l.length, L.get ⟨k, hk⟩ = f (l.get ⟨k, hk'⟩) := by
  subst hL
  have hk' : k < l.length := by simpa using hk
  refine ⟨hk', ?_⟩
  simp [List.get_eq_getElem, List.getElem_map]

/-- The reducer band names of a non-empty collection are those of its
first image. -/
theorem headBandNames_get_zero {P : Type} (l : List (Img P)) (h : 0 < l.length) :
    headBandNames l = bandNames (l.get ⟨0, h⟩) := by
  cases l with
  | nil => simp at h
  | cons x xs => rfl

/-- The window reduced by the annual composite is the summer window. -/
theorem summer_window_eq {P : Type} (cs : List (Img P)) (sm em : ℤ)
    (box : P → Bool) (y : ℤ) :
    filterDate ⟨y, sm, 1⟩ ⟨y, em, 31⟩ (filterBounds box (sortByTime cs)) =
      summer_window cs sm em box y := rfl

/-- Bands of a subtraction. -/
theorem imgSub_bands {P : Type} (a b : Img P) :
    (imgSub a b).bands = (a.bands.zip b.bands).map
      (fun nfg => (nfg.1.1, fun p => nfg.1.2 p - nfg.2.2 p)) := rfl

/-- Bands of a division. -/
theorem imgDiv_bands {P : Type} (a b : Img P) :
    (imgDiv a b).bands = (a.bands.zip b.bands).map
      (fun nfg => (nfg.1.1, fun p => nfg.1.2 p / nfg.2.2 p)) := rfl

/-- Clip does not change the bands. -/
theorem clip_bands {P : Type} (geom : P → Bool) (img : Img P) :
    (clip geom img).bands = img.bands := rfl

/-- Mask of a clipped image. -/
theorem clip_mask {P : Type} (geom : P → Bool) (img : Img P) (q : P) :
    (clip geom img).mask q = (img.mask q && geom q) := rfl

/-- A positional select keeps the mask. -/
theorem selectIdx_mask {P : Type} (i : ℕ) (nm : String) (img : Img P) (q : P) :
    (selectIdx i nm img).mask q = img.mask q := rfl

/-- Mask of a subtraction. -/
theorem imgSub_mask {P : Type} (a b : Img P) (q : P) :
    (imgSub a b).mask q = (a.mask q && b.mask q) := rfl

/-- Mask of a division. -/
theorem imgDiv_mask {P : Type} (a b : Img P) (q : P) :
    (imgDiv a b).mask q = (a.mask q && b.mask q) := rfl

/-- Mask of the collection mean. -/
theorem icMean_mask {P : Type} (c : List (Img P)) (q : P) :
    (icMean c).mask q = !(c.filter (fun i => i.mask q)).isEmpty := rfl

/-- Mask of the collection standard deviation. -/
theorem icReduceStdDev_mask {P : Type} (c : List (Img P)) (q : P) :
    (icReduceStdDev c).mask q = !(c.filter (fun i => i.mask q)).isEmpty := rfl

/-- C1: under the conditions that make the request well-formed (a
matching vegetation-index branch, a selected year within the years of
the collection, everywhere-defined composites at the pixel and a nonzero
standard deviation), anomaly_processing returns an image whose single
band is named z_score, which is masked outside the selected region, and
whose value at the pixel is
(selected_year_composite - multi_year_mean) / multi_year_stddev, where
the selected composite is the summer composite whose time_start is
June 1 of the selected year and mean and standard deviation range over
all yearly summer composites. -/
theorem c1_anomaly_zscore {P : Type} (cs : List (Img P)) (geom : P → Bool)
    (veg b : String) (year : ℤ) (grazing : Bool) (pasture : P → ℝ) (p : P) (sY : ℤ)
    (hveg : vegBand veg = some b)
    (hsY : sY = (minDate ((sortByTime cs).map (fun i => i.time))).year)
    (hy1 : sY ≤ year)
    (hy2 : year ≤ (maxDate ((sortByTime cs).map (fun i => i.time))).year)
    (hb : ∀ i ∈ cs, b ∈ bandNames i)
    (hmask : ∀ i ∈ summer_composite_model cs geom b grazing pasture, i.mask p = true)
    (hstd : listStdDev ((summer_composite_model cs geom b grazing pasture).map
      (fun i => valB i b p)) ≠ 0) :
    ∃ a : Img P, anomaly_processing cs geom veg year grazing pasture = some a ∧
      bandNames a = ["z_score"] ∧ a.mask p = true ∧
      (∀ q, geom q = false → a.mask q = false) ∧
      ∃ hidx : (year - sY).toNat <
          (summer_composite_model cs geom b grazing pasture).length,
        ((summer_composite_model cs geom b grazing pasture).get
            ⟨(year - sY).toNat, hidx⟩).time = ⟨year, 6, 1⟩ ∧
        valB a "z_score" p =
          (valB ((summer_composite_model cs geom b grazing pasture).get
              ⟨(year - sY).toNat, hidx⟩) b p -
            listMean ((summer_composite_model cs geom b grazing pasture).map
              (fun i => valB i b p))) /
          listStdDev ((summer_composite_model cs geom b grazing pasture).map
            (fun i => valB i b p)) := by
  -- The grazing branch only composes an extra mask after the band select.
  obtain ⟨post, extra, hSeq, hpt, hpb, hpm⟩ :
      ∃ (post : Img P → Img P) (extra : P → Bool),
        summer_composite_model cs geom b grazing pasture =
          (make_composite cs 6 8 geom).map post ∧
        (∀ i, (post i).time = i.time) ∧
        (∀ i, (post i).bands = (selectNames [b] i).bands) ∧
        (∀ i q, (post i).mask q = (i.mask q && extra q)) := by
    cases grazing with
    | false =>
      refine ⟨selectNames [b], fun _ => true, rfl, fun i => rfl, fun i => rfl,
        fun i q => ?_⟩
      rw [Bool.and_true]
      rfl
    | true =>
      refine ⟨fun i => image_mask pasture [3] (selectNames [b] i),
        fun q => ([(3 : ℝ)]).all (fun v => decide (pasture q ≠ v)), ?_,
        fun i => rfl, fun i => rfl, fun i q => rfl⟩
      show ((make_composite cs 6 8 geom).map (selectNames [b])).map
          (image_mask pasture [3]) = _
      rw [List.map_map]
      rfl
  have hlenEq : (summer_composite_model cs geom b grazing pasture).length =
      (make_composite cs 6 8 geom).length := by
    rw [hSeq, List.length_map]
  have hidx : (year - sY).toNat <
      (summer_composite_model cs geom b grazing pasture).length := by
    rw [hlenEq, make_composite_length, ← hsY]
    omega
  have hpos : 0 < (summer_composite_model cs geom b grazing pasture).length :=
    Nat.lt_of_le_of_lt (Nat.zero_le _) hidx
  -- Elements of the summer composite collection.
  have hgetS : ∀ k, ∀ hk : k < (summer_composite_model cs geom b grazing pasture).length,
      (summer_composite_model cs geom b grazing pasture).get ⟨k, hk⟩ =
        post (get_annual_median_composite (sortByTime cs) 6 8 geom (sY + k)) := by
    intro k hk
    obtain ⟨hk', heq⟩ := get_map_of_eq hSeq k hk
    rw [heq, make_composite_get cs 6 8 geom k hk', ← hsY]
  have htime : ∀ k, ∀ hk : k < (summer_composite_model cs geom b grazing pasture).length,
      ((summer_composite_model cs geom b grazing pasture).get ⟨k, hk⟩).time =
        ⟨sY + k, 6, 1⟩ := by
    intro k hk
    rw [hgetS k hk, hpt]
    rfl
  have hmaskS : ∀ k, ∀ hk : k < (summer_composite_model cs geom b grazing pasture).length,
      ((summer_composite_model cs geom b grazing pasture).get ⟨k, hk⟩).mask p = true :=
    fun k hk => hmask _ (List.get_mem _ _ _)
  -- Each year's window has an unmasked image at p, and p is in the region.
  have hwin : ∀ k, ∀ hk : k < (summer_composite_model cs geom b grazing pasture).length,
      (summer_window cs 6 8 geom (sY + k)).filter (fun i => i.mask p) ≠ [] ∧
        geom p = true := by
    intro k hk
    have hm := hmaskS k hk
    rw [hgetS k hk, hpm] at hm
    have hm' : (get_annual_median_composite (sortByTime cs) 6 8 geom
        (sY + k)).mask p = true ∧ extra p = true := by simpa using hm
    have hm1 := hm'.1
    rw [get_annual_median_composite_mask, summer_window_eq] at hm1
    have hm2 : (!(List.filter (fun i => i.mask p)
        (summer_window cs 6 8 geom (sY + k))).isEmpty) = true ∧ geom p = true := by
      simpa using hm1
    refine ⟨?_, hm2.2⟩
    intro hnil
    have h1 := hm2.1
    rw [hnil] at h1
    simp at h1
  -- The selected band is a reduced band of every year's window.
  have hhead : ∀ k, ∀ hk : k < (summer_composite_model cs geom b grazing pasture).length,
      b ∈ headBandNames (summer_window cs 6 8 geom (sY + k)) := by
    intro k hk
    obtain ⟨hne', -⟩ := hwin k hk
    have hWne : summer_window cs 6 8 geom (sY + k) ≠ [] := by
      intro h0
      apply hne'
      rw [h0]
      rfl
    cases hW : summer_window cs 6 8 geom (sY + k) with
    | nil => exact absurd hW hWne
    | cons w ws =>
      have hwmem : w ∈ summer_window cs 6 8 geom (sY + k) := by
        rw [hW]
        exact List.mem_cons_self _ _
      have hwcs : w ∈ cs :=
        ((mem_summer_window cs 6 8 geom (sY + k) w).mp hwmem).1
      exact hb w hwcs
  -- The bands of each summer composite: the selected band only.
  have hbands : ∀ k, ∀ hk : k < (summer_composite_model cs geom b grazing pasture).length,
      ((summer_composite_model cs geom b grazing pasture).get ⟨k, hk⟩).bands =
        [(b, fun q => listMedian (unmaskedVals
          (summer_window cs 6 8 geom (sY + k)) b q))] := by
    intro k hk
    have hlook : (get_annual_median_composite (sortByTime cs) 6 8 geom
        (sY + k)).bands.lookup b = some (fun q => listMedian (unmaskedVals
          (summer_window cs 6 8 geom (sY + k)) b q)) := by
      rw [get_annual_median_composite_bands, lookup_name_map, summer_window_eq,
        if_pos (hhead k hk)]
    rw [hgetS k hk, hpb, selectNames_bands]
    simp [List.filterMap_cons, hlook]
  have hheadS : headBandNames (summer_composite_model cs geom b grazing pasture) = [b] := by
    rw [headBandNames_get_zero _ hpos]
    have h0 := hbands 0 hpos
    unfold bandNames
    rw [h0]
    rfl
  -- The year filter keeps exactly the selected year's composite.
  have hfilter : filterDate ⟨year, 1, 1⟩ ⟨year, 12, 31⟩
      (summer_composite_model cs geom b grazing pasture) =
      [(summer_composite_model cs geom b grazing pasture).get
        ⟨(year - sY).toNat, hidx⟩] := by
    apply filter_eq_singleton_of_iff _ _ _ hidx
    intro k hk
    rw [htime k hk]
    simp only [Bool.and_eq_true, decide_eq_true_eq, Date.key]
    omega
  have hfirst : icFirst (filterDate ⟨year, 1, 1⟩ ⟨year, 12, 31⟩
      (summer_composite_model cs geom b grazing pasture)) =
      some ((summer_composite_model cs geom b grazing pasture).get
        ⟨(year - sY).toNat, hidx⟩) := by
    show (filterDate ⟨year, 1, 1⟩ ⟨year, 12, 31⟩
      (summer_composite_model cs geom b grazing pasture)).head? = _
    rw [hfilter]
    rfl
  -- The handler's result.
  have hSfold : (if grazing then
        ((make_composite cs 6 8 geom).map (selectNames [b])).map
          (image_mask pasture [3])
      else (make_composite cs 6 8 geom).map (selectNames [b])) =
      summer_composite_model cs geom b grazing pasture := rfl
  have hAP : anomaly_processing cs geom veg year grazing pasture =
      some (selectIdx 0 "z_score" (clip geom (imgDiv
        (imgSub ((summer_composite_model cs geom b grazing pasture).get
            ⟨(year - sY).toNat, hidx⟩)
          (icMean (summer_composite_model cs geom b grazing pasture)))
        (icReduceStdDev (summer_composite_model cs geom b grazing pasture))))) := by
    simp only [anomaly_processing, hveg]
    rw [hSfold, hfirst]
  -- Shorthand for the three per-pixel statistics.
  have hfs : (summer_composite_model cs geom b grazing pasture).filter
      (fun i => i.mask p) = summer_composite_model cs geom b grazing pasture :=
    List.filter_eq_self.mpr (fun i hi => hmask i hi)
  have hunm : unmaskedVals (summer_composite_model cs geom b grazing pasture) b p =
      (summer_composite_model cs geom b grazing pasture).map (fun i => valB i b p) := by
    show ((summer_composite_model cs geom b grazing pasture).filter
      (fun i => i.mask p)).map _ = _
    rw [hfs]
  have hMeanBands : (icMean (summer_composite_model cs geom b grazing pasture)).bands =
      [(b, fun q => listMean (unmaskedVals
        (summer_composite_model cs geom b grazing pasture) b q))] := by
    show (headBandNames (summer_composite_model cs geom b grazing pasture)).map _ = _
    rw [hheadS]
    rfl
  have hStdBands : (icReduceStdDev (summer_composite_model cs geom b grazing pasture)).bands =
      [(b ++ "_stdDev", fun q => listStdDev (unmaskedVals
        (summer_composite_model cs geom b grazing pasture) b q))] := by
    show (headBandNames (summer_composite_model cs geom b grazing pasture)).map _ = _
    rw [hheadS]
    rfl
  have hSelBands := hbands (year - sY).toNat hidx
  -- The anomaly image's single band.
  have haBands : (selectIdx 0 "z_score" (clip geom (imgDiv
      (imgSub ((summer_composite_model cs geom b grazing pasture).get
          ⟨(year - sY).toNat, hidx⟩)
        (icMean (summer_composite_model cs geom b grazing pasture)))
      (icReduceStdDev (summer_composite_model cs geom b grazing pasture))))).bands =
      [("z_score", fun q =>
        (listMedian (unmaskedVals (summer_window cs 6 8 geom
            (sY + (year - sY).toNat)) b q) -
          listMean (unmaskedVals
            (summer_composite_model cs geom b grazing pasture) b q)) /
        listStdDev (unmaskedVals
          (summer_composite_model cs geom b grazing pasture) b q))] := by
    show (match (clip geom (imgDiv (imgSub _ _) _)).bands.get? 0 with
      | some nf => [("z_score", nf.2)]
      | none => ([] : List (String × (P → ℝ)))) = _
    rw [clip_bands, imgDiv_bands, imgSub_bands, hSelBands, hMeanBands, hStdBands]
    rfl
  refine ⟨_, hAP, ?_, ?_, ?_, hidx, ?_, ?_⟩
  · unfold bandNames
    rw [haBands]
    rfl
  · -- mask at p
    rw [selectIdx_mask, clip_mask, imgDiv_mask, imgSub_mask, hmaskS _ hidx]
    rw [icMean_mask, icReduceStdDev_mask, hfs]
    have hgeom := (hwin (year - sY).toNat hidx).2
    rw [hgeom]
    cases hS0 : summer_composite_model cs geom b grazing pasture with
    | nil =>
      rw [hS0] at hpos
      simp at hpos
    | cons s0 ss => rfl
  · -- masked outside the region
    intro q hq
    rw [selectIdx_mask, clip_mask, hq, Bool.and_false]
  · -- the selected composite is the one of the selected year
    rw [htime _ hidx]
    have : sY + ((year - sY).toNat : ℤ) = year := by omega
    rw [this]
  · -- the z-score value
    have hlz : (selectIdx 0 "z_score" (clip geom (imgDiv
        (imgSub ((summer_composite_model cs geom b grazing pasture).get
            ⟨(year - sY).toNat, hidx⟩)
          (icMean (summer_composite_model cs geom b grazing pasture)))
        (icReduceStdDev (summer_composite_model cs geom b grazing
          pasture))))).bands.lookup "z_score" =
        some (fun q =>
          (listMedian (unmaskedVals (summer_window cs 6 8 geom
              (sY + (year - sY).toNat)) b q) -
            listMean (unmaskedVals
              (summer_composite_model cs geom b grazing pasture) b q)) /
          listStdDev (unmaskedVals
            (summer_composite_model cs geom b grazing pasture) b q)) := by
      rw [haBands]
      rfl
    rw [valB_of_lookup_eq_some hlz]
    have hselv : valB ((summer_composite_model cs geom b grazing pasture).get
        ⟨(year - sY).toNat, hidx⟩) b p =
        listMedian (unmaskedVals (summer_window cs 6 8 geom
          (sY + (year - sY).toNat)) b p) := by
      apply valB_of_lookup_eq_some
      rw [hSelBands]
      simp [List.lookup_cons]
    rw [hselv, hunm]

/-- C1 witness: on the two-image collection (ndvi 0 in 2017, ndvi 2 in
2018) with selected year 2018, anomaly_processing succeeds and returns a
single z_score band defined at the pixel. -/
theorem c1_witness :
    vegBand "NDVI" = some "ndvi" ∧
    ∃ a : Img Unit,
      anomaly_processing [wImgA, wImgB] (fun _ => true) "NDVI" 2018 false
        (fun _ => 0) = some a ∧
      bandNames a = ["z_score"] ∧ a.mask () = true := by
  have hveg : vegBand "NDVI" = some "ndvi" := rfl
  have hsY : (2017 : ℤ) =
      (minDate ((sortByTime [wImgA, wImgB]).map (fun i => i.time))).year := by decide
  have hy1 : (2017 : ℤ) ≤ 2018 := by norm_num
  have hy2 : (2018 : ℤ) ≤
      (maxDate ((sortByTime [wImgA, wImgB]).map (fun i => i.time))).year := by decide
  have hb : ∀ i ∈ [wImgA, wImgB], "ndvi" ∈ bandNames i := by decide
  have hmask : ∀ i ∈ summer_composite_model [wImgA, wImgB] (fun _ => true) "ndvi"
      false (fun _ => 0), i.mask () = true := by decide
  have hmap : (summer_composite_model [wImgA, wImgB] (fun _ => true) "ndvi" false
      (fun _ => 0)).map (fun i => valB i "ndvi" ()) = [(0 : ℝ), 2] := by
    simp [summer_composite_model, make_composite, sortByTime, List.insertionSort,
      List.orderedInsert, minDate, maxDate, yearsRange, get_annual_median_composite,
      icMedian, headBandNames, selectNames, clip, setTime, filterDate, filterBounds,
      unmaskedVals, valB, listMedian, wImgA, wImgB, Date.key, bandNames,
      List.lookup, List.range_succ]
  have hstd : listStdDev ((summer_composite_model [wImgA, wImgB] (fun _ => true)
      "ndvi" false (fun _ => 0)).map (fun i => valB i "ndvi" ())) ≠ 0 := by
    rw [hmap]
    have h1 : listMean [(0 : ℝ), 2] = 1 := by
      simp [listMean]
    have h2 : listVariance [(0 : ℝ), 2] = 1 := by
      simp [listVariance, h1]
      norm_num
    have h3 : listStdDev [(0 : ℝ), 2] = 1 := by
      rw [listStdDev, h2, Real.sqrt_one]
    rw [h3]
    norm_num
  obtain ⟨a, hAP, hband, hmaskp, -, -, -, -⟩ :=
    c1_anomaly_zscore [wImgA, wImgB] (fun _ => true) "NDVI" "ndvi" 2018 false
      (fun _ => 0) () 2017 hveg hsY hy1 hy2 hb hmask hstd
  exact ⟨hveg, a, hAP, hband, hmaskp⟩

/-! ### Claim C6: Roy harmonization -/

/-- Bands of addBandsOverwrite. -/
theorem addBandsOverwrite_bands {P : Type} (img y : Img P) :
    (addBandsOverwrite img y).bands =
      (img.bands.map (fun nf => (nf.1, (y.bands.lookup nf.1).getD nf.2))) ++
        y.bands.filter (fun nf => (img.bands.lookup nf.1).isNone) := rfl

/-- Overwriting values keeps the key list. -/
theorem keys_map_overwrite {A : Type} (l : List (String × A)) (F : String → A → A) :
    (l.map (fun nf => (nf.1, F nf.1 nf.2))).map (fun nf => nf.1) =
      l.map (fun nf => nf.1) := by
  induction l with
  | nil => rfl
  | cons nf tl ih => simp [ih]

/-- The common shape of both Roy harmonization functions: the six
selected reflectance bands, multiplied by per-band slopes and shifted by
per-band intercepts, overwrite the originals; every other band and the
band order are untouched. -/
theorem roy_harmonization_values {P : Type} (img y : Img P) (p : P)
    (s1 s2 s3 s4 s5 s6 c1v c2v c3v c4v c5v c6v : ℝ)
    (hy : y = imgAddConsts [c1v, c2v, c3v, c4v, c5v, c6v]
      (imgMulConsts [s1, s2, s3, s4, s5, s6] (selectNames royBands img)))
    (hmem : ∀ n ∈ royBands, n ∈ bandNames img) :
    bandNames (addBandsOverwrite img y) = bandNames img ∧
    (∀ j : Fin 6, valB (addBandsOverwrite img y) (royBands.getD j "") p =
      ([s1, s2, s3, s4, s5, s6].getD j 0) * valB img (royBands.getD j "") p +
        ([c1v, c2v, c3v, c4v, c5v, c6v].getD j 0)) ∧
    (∀ bb ∈ bandNames img, bb ∉ royBands →
      valB (addBandsOverwrite img y) bb p = valB img bb p) := by
  obtain ⟨f1, hf1⟩ := Option.isSome_iff_exists.mp
    (lookup_isSome_of_mem_bandNames (hmem "SR_B1" (by decide)))
  obtain ⟨f2, hf2⟩ := Option.isSome_iff_exists.mp
    (lookup_isSome_of_mem_bandNames (hmem "SR_B2" (by decide)))
  obtain ⟨f3, hf3⟩ := Option.isSome_iff_exists.mp
    (lookup_isSome_of_mem_bandNames (hmem "SR_B3" (by decide)))
  obtain ⟨f4, hf4⟩ := Option.isSome_iff_exists.mp
    (lookup_isSome_of_mem_bandNames (hmem "SR_B4" (by decide)))
  obtain ⟨f5, hf5⟩ := Option.isSome_iff_exists.mp
    (lookup_isSome_of_mem_bandNames (hmem "SR_B5" (by decide)))
  obtain ⟨f6, hf6⟩ := Option.isSome_iff_exists.mp
    (lookup_isSome_of_mem_bandNames (hmem "SR_B7" (by decide)))
  have ybands : y.bands =
      [("SR_B1", fun q => f1 q * s1 + c1v), ("SR_B2", fun q => f2 q * s2 + c2v),
       ("SR_B3", fun q => f3 q * s3 + c3v), ("SR_B4", fun q => f4 q * s4 + c4v),
       ("SR_B5", fun q => f5 q * s5 + c5v), ("SR_B7", fun q => f6 q * s6 + c6v)] := by
    rw [hy]
    simp [imgAddConsts, imgMulConsts, selectNames, royBands, hf1, hf2, hf3, hf4,
      hf5, hf6, List.filterMap_cons]
  have hfilterNil : y.bands.filter (fun nf => (img.bands.lookup nf.1).isNone) = [] := by
    rw [ybands]
    simp [hf1, hf2, hf3, hf4, hf5, hf6]
  have hval : ∀ (n : String) (fv gv : P → ℝ), img.bands.lookup n = some fv →
      y.bands.lookup n = some gv → valB (addBandsOverwrite img y) n p = gv p := by
    intro n fv gv hf hg
    apply valB_of_lookup_eq_some
    have hfirst : List.lookup n
        (img.bands.map (fun nf => (nf.1, (y.bands.lookup nf.1).getD nf.2))) =
        some gv := by
      rw [lookup_map_overwrite img.bands (fun k v => (y.bands.lookup k).getD v), hf]
      simp [hg]
    rw [addBandsOverwrite_bands]
    exact lookup_append_some _ hfirst
  refine ⟨?_, ?_, ?_⟩
  · show ((img.bands.map (fun nf => (nf.1, (y.bands.lookup nf.1).getD nf.2))) ++
        y.bands.filter (fun nf => (img.bands.lookup nf.1).isNone)).map
          (fun nf => nf.1) =
      img.bands.map (fun nf => nf.1)
    rw [hfilterNil, List.append_nil]
    exact keys_map_overwrite img.bands (fun k v => (y.bands.lookup k).getD v)
  · intro j
    fin_cases j
    · rw [show royBands.getD 0 "" = "SR_B1" from rfl,
        hval "SR_B1" f1 _ hf1 (by rw [ybands]; rfl), valB_of_lookup_eq_some hf1]
      simp [mul_comm]
    · rw [show royBands.getD 1 "" = "SR_B2" from rfl,
        hval "SR_B2" f2 _ hf2 (by rw [ybands]; rfl), valB_of_lookup_eq_some hf2]
      simp [mul_comm]
    · rw [show royBands.getD 2 "" = "SR_B3" from rfl,
        hval "SR_B3" f3 _ hf3 (by rw [ybands]; rfl), valB_of_lookup_eq_some hf3]
      simp [mul_comm]
    · rw [show royBands.getD 3 "" = "SR_B4" from rfl,
        hval "SR_B4" f4 _ hf4 (by rw [ybands]; rfl), valB_of_lookup_eq_some hf4]
      simp [mul_comm]
    · rw [show royBands.getD 4 "" = "SR_B5" from rfl,
        hval "SR_B5" f5 _ hf5 (by rw [ybands]; rfl), valB_of_lookup_eq_some hf5]
      simp [mul_comm]
    · rw [show royBands.getD 5 "" = "SR_B7" from rfl,
        hval "SR_B7" f6 _ hf6 (by rw [ybands]; rfl), valB_of_lookup_eq_some hf6]
      simp [mul_comm]
  · intro bb hbb hnot
    obtain ⟨fb, hfb⟩ := Option.isSome_iff_exists.mp
      (lookup_isSome_of_mem_bandNames hbb)
    simp only [royBands, List.mem_cons, List.not_mem_nil, or_false, not_or] at hnot
    have hynone : y.bands.lookup bb = none := by
      apply lookup_eq_none_of_keys_ne
      rw [ybands]
      intro nf hnf
      simp only [List.mem_cons, List.not_mem_nil, or_false] at hnf
      rcases hnf with rfl | rfl | rfl | rfl | rfl | rfl <;>
        simp <;> tauto
    have hfirst : List.lookup bb
        (img.bands.map (fun nf => (nf.1, (y.bands.lookup nf.1).getD nf.2))) =
        some fb := by
      rw [lookup_map_overwrite img.bands (fun k v => (y.bands.lookup k).getD v), hfb]
      simp [hynone]
    rw [valB_of_lookup_eq_some (by
        rw [addBandsOverwrite_bands]
        exact lookup_append_some _ hfirst),
      valB_of_lookup_eq_some hfb]

/-- C6: harmonizationRoy_fromETM_OLI and harmonizationRoy_fromETMplus_OLI
replace each of SR_B1, SR_B2, SR_B3, SR_B4, SR_B5, SR_B7 with
slope_b * value + intercept_b for their fixed per-band slopes and
intercepts, and leave every other band (and the band list) unchanged. -/
theorem c6_harmonizationRoy {P : Type} (img : Img P) (p : P)
    (hmem : ∀ n ∈ royBands, n ∈ bandNames img) :
    (bandNames (harmonizationRoy_fromETM_OLI img) = bandNames img ∧
     (∀ j : Fin 6, valB (harmonizationRoy_fromETM_OLI img) (royBands.getD j "") p =
       ([0.9785, 0.9542, 0.9825, 1.0073, 1.0171, 0.9949].getD j 0) *
          valB img (royBands.getD j "") p +
        ([-0.0095, -0.0016, -0.0022, -0.0021, -0.0030, 0.0029].getD j 0)) ∧
     (∀ bb ∈ bandNames img, bb ∉ royBands →
       valB (harmonizationRoy_fromETM_OLI img) bb p = valB img bb p)) ∧
    (bandNames (harmonizationRoy_fromETMplus_OLI img) = bandNames img ∧
     (∀ j : Fin 6, valB (harmonizationRoy_fromETMplus_OLI img) (royBands.getD j "") p =
       ([0.8474, 0.8483, 0.9047, 0.8462, 0.8937, 0.9071].getD j 0) *
          valB img (royBands.getD j "") p +
        ([0.0003, 0.0088, 0.0061, 0.0412, 0.0254, 0.0172].getD j 0)) ∧
     (∀ bb ∈ bandNames img, bb ∉ royBands →
       valB (harmonizationRoy_fromETMplus_OLI img) bb p = valB img bb p)) := by
  constructor
  · exact roy_harmonization_values img _ p
      0.9785 0.9542 0.9825 1.0073 1.0171 0.9949
      (-0.0095) (-0.0016) (-0.0022) (-0.0021) (-0.0030) 0.0029 rfl hmem
  · exact roy_harmonization_values img _ p
      0.8474 0.8483 0.9047 0.8462 0.8937 0.9071
      0.0003 0.0088 0.0061 0.0412 0.0254 0.0172 rfl hmem

/-- C6 witness: both harmonizations on the concrete seven-band image
keep the band list, and the first rescaled band obeys the ETM slope and
intercept. -/
theorem c6_witness :
    (∀ n ∈ royBands, n ∈ bandNames testImg) ∧
    bandNames (harmonizationRoy_fromETM_OLI testImg) = bandNames testImg ∧
    bandNames (harmonizationRoy_fromETMplus_OLI testImg) = bandNames testImg ∧
    valB (harmonizationRoy_fromETM_OLI testImg) (royBands.getD 0 "") () =
      ([0.9785, 0.9542, 0.9825, 1.0073, 1.0171, 0.9949].getD 0 0) *
        valB testImg (royBands.getD 0 "") () +
      ([-0.0095, -0.0016, -0.0022, -0.0021, -0.0030, 0.0029].getD 0 0) := by
  have hmem : ∀ n ∈ royBands, n ∈ bandNames testImg := by decide
  obtain ⟨⟨hA, hAv, -⟩, ⟨hB, -, -⟩⟩ := c6_harmonizationRoy testImg () hmem
  exact ⟨hmem, hA, hB, hAv 0⟩
